import Mathlib

/-!
Shallow embedding of `monitor.py` (akonuma/competitor-monitor).

The source file concatenates two near-duplicate variants of the same script;
this development embeds the first variant (lines 1-294), which is the one the
specification's cited line ranges refer to.

Python strings are modelled as Lean `String` (a list of unicode characters,
like Python's `str`).  Python's whitespace handling is modelled for the ASCII
whitespace characters.  Regex-based transforms of the source are embedded as
explicit character scanners with the same matching semantics; scanners that
are not structurally recursive take an explicit fuel argument that is always
instantiated with a provably sufficient bound.
-/

set_option maxRecDepth 100000

namespace Monitor

/-! ### Python string primitives -/

/-- Python `str.strip` whitespace set (ASCII part): space, tab, LF, CR, VT, FF. -/
def pyWSChar (c : Char) : Bool :=
  c = ' ' || c = '\t' || c = '\n' || c = '\r' || c = Char.ofNat 11 || c = Char.ofNat 12

/-- Strip `pyWSChar` characters from both ends of a character list. -/
def pyStripList (l : List Char) : List Char :=
  ((l.dropWhile pyWSChar).reverse.dropWhile pyWSChar).reverse

/-- Python `str.strip()` (ASCII whitespace). -/
def pyStrip (s : String) : String := ⟨pyStripList s.data⟩

/-- Python `str.startswith(pre)`. -/
def pyStartsWith (s pre : String) : Bool := pre.data.isPrefixOf s.data

def pySplitAux (sep : Char) : List Char → List Char → List String
  | cur, [] => [⟨cur.reverse⟩]
  | cur, c :: rest =>
    if c = sep then ⟨cur.reverse⟩ :: pySplitAux sep [] rest
    else pySplitAux sep (c :: cur) rest

/-- Python `str.split(sep)` for a single-character separator: keeps empty fields,
`"".split(sep) = [""]`. -/
def pySplit (s : String) (sep : Char) : List String := pySplitAux sep [] s.data

/-- Python `str.splitlines` boundary characters (LF, CR, VT, FF, FS, GS, RS, NEL,
LINE SEPARATOR, PARAGRAPH SEPARATOR; CRLF is handled as one boundary). -/
def pyLineBreak (c : Char) : Bool :=
  c = '\n' || c = '\r' || c = Char.ofNat 11 || c = Char.ofNat 12 ||
  c = Char.ofNat 28 || c = Char.ofNat 29 || c = Char.ofNat 30 ||
  c = Char.ofNat 133 || c = Char.ofNat 8232 || c = Char.ofNat 8233

def pySplitlinesAux : List Char → List Char → List String
  | cur, [] => if cur = [] then [] else [⟨cur.reverse⟩]
  | cur, '\r' :: '\n' :: rest => ⟨cur.reverse⟩ :: pySplitlinesAux [] rest
  | cur, c :: rest =>
    if pyLineBreak c then ⟨cur.reverse⟩ :: pySplitlinesAux [] rest
    else pySplitlinesAux (c :: cur) rest

/-- Python `str.splitlines()`: no trailing empty line, `"".splitlines() = []`. -/
def pySplitlines (s : String) : List String := pySplitlinesAux [] s.data

/-- Python `'\n'.join(lines)`. -/
def joinNL (lines : List String) : String := String.intercalate "\n" lines

/-! ### difflib embedding

Embeds CPython's `difflib.SequenceMatcher` / `difflib.unified_diff` as used by
`monitor.py`: `SequenceMatcher(None, a, b)` (so `isjunk` is `None`, hence
`bjunk = ∅` and the junk-extension loops of `find_longest_match` never run;
`autojunk` is on, so popular elements are purged from `b2j` for `len(b) ≥ 200`).
-/

/-- A matching block `(a, b, size)` as returned by `find_longest_match`. -/
structure MBlock where
  a : Nat
  b : Nat
  size : Nat
deriving DecidableEq, Repr

def b2jInsert (m : List (String × List Nat)) (key : String) (idx : Nat) :
    List (String × List Nat) :=
  match m with
  | [] => [(key, [idx])]
  | (k, v) :: rest =>
    if k = key then (k, v ++ [idx]) :: rest else (k, v) :: b2jInsert rest key idx

def b2jBuild : List String → Nat → List (String × List Nat) → List (String × List Nat)
  | [], _, m => m
  | s :: rest, i, m => b2jBuild rest (i + 1) (b2jInsert m s i)

def b2jGet (m : List (String × List Nat)) (key : String) : List Nat :=
  match m with
  | [] => []
  | (k, v) :: rest => if k = key then v else b2jGet rest key

/-- difflib `SequenceMatcher.__chain_b`: build `b2j`; with `autojunk` on and
`len(b) ≥ 200`, purge elements occurring more than `len(b)/100 + 1` times. -/
def chainB (b : List String) : List (String × List Nat) :=
  let m := b2jBuild b 0 []
  let n := b.length
  if n ≥ 200 then m.filter (fun kv => !(kv.2.length > n / 100 + 1)) else m

def njGet (m : List (Nat × Nat)) (k : Nat) : Nat :=
  match m with
  | [] => 0
  | (a, b) :: rest => if a = k then b else njGet rest k

def njSet (m : List (Nat × Nat)) (k v : Nat) : List (Nat × Nat) :=
  match m with
  | [] => [(k, v)]
  | (a, b) :: rest => if a = k then (a, v) :: rest else (a, b) :: njSet rest k v

structure FLMState where
  besti : Nat
  bestj : Nat
  bestsize : Nat
deriving DecidableEq, Repr

/-- Inner loop of `find_longest_match` over `b2j[a[i]]` (ascending positions;
`continue` below `blo`, `break` at `bhi`).  `j2len.get(j-1, 0)` is 0 for `j = 0`
since Python's `-1` key is absent. -/
def flmInner (blo bhi i : Nat) (j2len : List (Nat × Nat)) :
    List Nat → List (Nat × Nat) → FLMState → List (Nat × Nat) × FLMState
  | [], newj2len, st => (newj2len, st)
  | j :: js, newj2len, st =>
    if j < blo then flmInner blo bhi i j2len js newj2len st
    else if j ≥ bhi then (newj2len, st)
    else
      let k := (if j = 0 then 0 else njGet j2len (j - 1)) + 1
      let newj2len' := njSet newj2len j k
      let st' := if k > st.bestsize then FLMState.mk (i + 1 - k) (j + 1 - k) k else st
      flmInner blo bhi i j2len js newj2len' st'

/-- Outer loop of `find_longest_match` over `i ∈ [alo, ahi)`. -/
def flmOuter (a : List String) (b2j : List (String × List Nat)) (blo bhi : Nat) :
    List Nat → List (Nat × Nat) → FLMState → FLMState
  | [], _, st => st
  | i :: is, j2len, st =>
    let p := flmInner blo bhi i j2len (b2jGet b2j (a.getD i "")) [] st
    flmOuter a b2j blo bhi is p.1 p.2

/-- Backward extension of the best match by equal (non-junk) elements. -/
def extendBack (a b : List String) (alo blo : Nat) : Nat → FLMState → FLMState
  | 0, st => st
  | fuel + 1, st =>
    if alo < st.besti ∧ blo < st.bestj ∧
        a.getD (st.besti - 1) "" = b.getD (st.bestj - 1) "" then
      extendBack a b alo blo fuel
        (FLMState.mk (st.besti - 1) (st.bestj - 1) (st.bestsize + 1))
    else st

/-- Forward extension of the best match by equal (non-junk) elements. -/
def extendFwd (a b : List String) (ahi bhi : Nat) : Nat → FLMState → FLMState
  | 0, st => st
  | fuel + 1, st =>
    if st.besti + st.bestsize < ahi ∧ st.bestj + st.bestsize < bhi ∧
        a.getD (st.besti + st.bestsize) "" = b.getD (st.bestj + st.bestsize) "" then
      extendFwd a b ahi bhi fuel (FLMState.mk st.besti st.bestj (st.bestsize + 1))
    else st

/-- difflib `SequenceMatcher.find_longest_match` (with `bjunk = ∅`, so the two
junk-extension loops are vacuous and omitted). -/
def findLongestMatch (a b : List String) (b2j : List (String × List Nat))
    (alo ahi blo bhi : Nat) : MBlock :=
  let st1 := flmOuter a b2j blo bhi (List.range' alo (ahi - alo)) [] (FLMState.mk alo blo 0)
  let st2 := extendBack a b alo blo st1.besti st1
  let st3 := extendFwd a b ahi bhi ahi st2
  MBlock.mk st3.besti st3.bestj st3.bestsize

/-- Queue loop of `get_matching_blocks` (LIFO; the later-pushed right part is
processed first, which we model by pushing it at the head).  The collected
block order is irrelevant since the result is sorted.  The fuel passed by
`getMatchingBlocks` strictly exceeds the number of pops. -/
def gmbLoop (a b : List String) (b2j : List (String × List Nat)) :
    Nat → List (Nat × Nat × Nat × Nat) → List MBlock → List MBlock
  | _, [], acc => acc
  | 0, _, acc => acc
  | fuel + 1, (alo, ahi, blo, bhi) :: qs, acc =>
    let m := findLongestMatch a b b2j alo ahi blo bhi
    if m.size ≠ 0 then
      let right := if m.a + m.size < ahi ∧ m.b + m.size < bhi then
        [(m.a + m.size, ahi, m.b + m.size, bhi)] else []
      let left := if alo < m.a ∧ blo < m.b then [(alo, m.a, blo, m.b)] else []
      gmbLoop a b b2j fuel (right ++ left ++ qs) (m :: acc)
    else gmbLoop a b b2j fuel qs acc

def mbLe (x y : MBlock) : Bool :=
  x.a < y.a || (x.a = y.a && (x.b < y.b || (x.b = y.b && x.size ≤ y.size)))

def mbInsert (x : MBlock) : List MBlock → List MBlock
  | [] => [x]
  | y :: rest => if mbLe x y then x :: y :: rest else y :: mbInsert x rest

/-- Sorting the matching blocks (Python `list.sort`); blocks have pairwise
distinct `a` starts, so any lexicographic sort yields Python's result. -/
def mbSort : List MBlock → List MBlock
  | [] => []
  | x :: rest => mbInsert x (mbSort rest)

/-- Collapse adjacent blocks (`get_matching_blocks` second phase). -/
def collapseBlocks : List MBlock → Nat → Nat → Nat → List MBlock
  | [], i1, j1, k1 => if k1 ≠ 0 then [MBlock.mk i1 j1 k1] else []
  | m :: rest, i1, j1, k1 =>
    if i1 + k1 = m.a ∧ j1 + k1 = m.b then collapseBlocks rest i1 j1 (k1 + m.size)
    else (if k1 ≠ 0 then [MBlock.mk i1 j1 k1] else []) ++ collapseBlocks rest m.a m.b m.size

/-- difflib `SequenceMatcher.get_matching_blocks` including the `(la, lb, 0)`
terminator. -/
def getMatchingBlocks (a b : List String) : List MBlock :=
  let blocks := mbSort (gmbLoop a b (chainB b) (2 * (a.length + b.length) + 4)
    [(0, a.length, 0, b.length)] [])
  collapseBlocks blocks 0 0 0 ++ [MBlock.mk a.length b.length 0]

inductive OpTag
  | replace
  | delete
  | insert
  | equal
deriving DecidableEq, Repr

structure Opcode where
  tag : OpTag
  i1 : Nat
  i2 : Nat
  j1 : Nat
  j2 : Nat
deriving DecidableEq, Repr

def opcodesFromBlocks : List MBlock → Nat → Nat → List Opcode
  | [], _, _ => []
  | m :: rest, i, j =>
    let pre : List Opcode :=
      if i < m.a ∧ j < m.b then [Opcode.mk .replace i m.a j m.b]
      else if i < m.a then [Opcode.mk .delete i m.a j m.b]
      else if j < m.b then [Opcode.mk .insert i m.a j m.b]
      else []
    let eq : List Opcode :=
      if m.size ≠ 0 then [Opcode.mk .equal m.a (m.a + m.size) m.b (m.b + m.size)] else []
    pre ++ eq ++ opcodesFromBlocks rest (m.a + m.size) (m.b + m.size)

/-- difflib `SequenceMatcher.get_opcodes`. -/
def getOpcodes (a b : List String) : List Opcode :=
  opcodesFromBlocks (getMatchingBlocks a b) 0 0

/-- Trim a leading `equal` opcode to at most `n` context lines.  Python's
`max(i1, i2-n)` on ints coincides with `max i1 (i2 - n)` on `Nat` because
`i1 ≤ i2` always holds in an opcode. -/
def adjustFirst (n : Nat) : List Opcode → List Opcode
  | ⟨.equal, i1, i2, j1, j2⟩ :: rest =>
    ⟨.equal, max i1 (i2 - n), i2, max j1 (j2 - n), j2⟩ :: rest
  | l => l

/-- Trim a trailing `equal` opcode to at most `n` context lines. -/
def adjustLast (n : Nat) : List Opcode → List Opcode
  | [] => []
  | [op] =>
    if op.tag = .equal then [⟨.equal, op.i1, min op.i2 (op.i1 + n), op.j1, min op.j2 (op.j1 + n)⟩]
    else [op]
  | op :: rest => op :: adjustLast n rest

def isSingleEqual : List Opcode → Bool
  | [op] => op.tag = .equal
  | _ => false

/-- Group-splitting loop of `get_grouped_opcodes`: a group ends before an
`equal` stretch longer than `2n`; the final group is dropped when it is a lone
`equal` opcode. -/
def groupSplit (n : Nat) : List Opcode → List Opcode → List (List Opcode)
  | group, [] => if group ≠ [] ∧ !isSingleEqual group then [group] else []
  | group, op :: rest =>
    if op.tag = .equal ∧ op.i2 - op.i1 > n + n then
      (group ++ [⟨.equal, op.i1, min op.i2 (op.i1 + n), op.j1, min op.j2 (op.j1 + n)⟩]) ::
        groupSplit n [⟨.equal, max op.i1 (op.i2 - n), op.i2, max op.j1 (op.j2 - n), op.j2⟩] rest
    else groupSplit n (group ++ [op]) rest

/-- difflib `SequenceMatcher.get_grouped_opcodes`. -/
def getGroupedOpcodes (a b : List String) (n : Nat) : List (List Opcode) :=
  let codes := getOpcodes a b
  let codes := if codes = [] then [Opcode.mk .equal 0 1 0 1] else codes
  groupSplit n [] (adjustLast n (adjustFirst n codes))

/-- difflib `_format_range_unified`. -/
def formatRangeUnified (start stop : Nat) : String :=
  let length := stop - start
  if length = 1 then toString (start + 1)
  else
    let beginning := if length = 0 then start else start + 1
    toString beginning ++ "," ++ toString length

def sliceMap (l : List String) (i1 i2 : Nat) (pre : String) : List String :=
  ((l.drop i1).take (i2 - i1)).map (fun s => pre ++ s)

/-- Body lines of one unified-diff hunk. -/
def hunkLines (a b : List String) (g : List Opcode) : List String :=
  g.flatMap (fun op =>
    match op.tag with
    | .equal => sliceMap a op.i1 op.i2 " "
    | .delete => sliceMap a op.i1 op.i2 "-"
    | .insert => sliceMap b op.j1 op.j2 "+"
    | .replace => sliceMap a op.i1 op.i2 "-" ++ sliceMap b op.j1 op.j2 "+")

/-- Hunk header line `@@ -r1 +r2 @@`. -/
def hunkHeader (g : List Opcode) : String :=
  match g with
  | [] => ""
  | first :: _ =>
    let last := g.getLastD first
    "@@ -" ++ formatRangeUnified first.i1 last.i2 ++ " +" ++
      formatRangeUnified first.j1 last.j2 ++ " @@"

/-- difflib `unified_diff(a, b, lineterm='', n=n)` with empty file names/dates,
as a list of lines: two header lines (only when at least one group exists),
then per group a hunk header and the hunk body. -/
def unified_diff (a b : List String) (n : Nat) : List String :=
  match getGroupedOpcodes a b n with
  | [] => []
  | groups => ["--- ", "+++ "] ++ groups.flatMap (fun g => hunkHeader g :: hunkLines a b g)

/-! ### get_diff_summary (monitor.py lines 144-200) -/

/-- The sentinel "no change" result. -/
def noChange : String := "変更なし"

/-- Loop of lines 167-173: skip diff metadata lines (file headers, hunk
markers), collect the contents of added and removed lines (stripped). -/
def extractChanges : List String → List String × List String
  | [] => ([], [])
  | l :: rest =>
    let p := extractChanges rest
    if pyStartsWith l "---" || pyStartsWith l "+++" || pyStartsWith l "@@" then p
    else if pyStartsWith l "+" then (pyStrip ⟨l.data.tail⟩ :: p.1, p.2)
    else if pyStartsWith l "-" then (p.1, pyStrip ⟨l.data.tail⟩ :: p.2)
    else p

/-- Lines 182-188: the removed-content section: header, at most `max_changes`
non-blank bullet lines, and an omitted-count line when the list is longer than
`max_changes`. -/
def renderRemoved (removed : List String) (max_changes : Nat) : List String :=
  if removed ≠ [] then
    "【削除された内容】" ::
      (((removed.take max_changes).filter (fun l => l ≠ "")).map (fun l => "  - " ++ l) ++
        (if removed.length > max_changes then
          ["  ... 他 " ++ toString (removed.length - max_changes) ++ " 行"] else []))
  else []

/-- Lines 190-198: blank separator line (only when the removed section is also
present), then the added-content section. -/
def renderAdded (removed added : List String) (max_changes : Nat) : List String :=
  if added ≠ [] then
    (if removed ≠ [] then [""] else []) ++
      ("【追加された内容】" ::
        (((added.take max_changes).filter (fun l => l ≠ "")).map (fun l => "  + " ++ l) ++
          (if added.length > max_changes then
            ["  ... 他 " ++ toString (added.length - max_changes) ++ " 行"] else [])))
  else []

/-- Line 153-158: the diff of the two line sequences, no context lines. -/
def diffLines (old_content new_content : String) : List String :=
  unified_diff (pySplitlines old_content) (pySplitlines new_content) 0

/-- The local `added` of `get_diff_summary`. -/
def diffAdded (old_content new_content : String) : List String :=
  (extractChanges ((diffLines old_content new_content).drop 2)).1

/-- The local `removed` of `get_diff_summary`. -/
def diffRemoved (old_content new_content : String) : List String :=
  (extractChanges ((diffLines old_content new_content).drop 2)).2

/-- monitor.py `get_diff_summary` (lines 144-200). -/
def get_diff_summary (old_content new_content : String) (max_changes : Nat) : String :=
  if pySplitlines old_content = pySplitlines new_content then noChange
  else
    let diff := diffLines old_content new_content
    if diff = [] ∨ diff.length ≤ 2 then noChange
    else
      if diffAdded old_content new_content = [] ∧ diffRemoved old_content new_content = []
      then noChange
      else
        let result := renderRemoved (diffRemoved old_content new_content) max_changes ++
          renderAdded (diffRemoved old_content new_content)
            (diffAdded old_content new_content) max_changes
        if result ≠ [] then joinNL result else noChange

/-! ### strip_html_tags (monitor.py lines 54-116)

The regexes of the source are embedded as explicit scanners with `re`'s
semantics: scan positions left to right, take the leftmost match, continue
after its end; on a failed match attempt advance one position. -/

/-- Case-insensitive prefix test: `pat` is given in lowercase. -/
def matchCI : List Char → List Char → Bool
  | [], _ => true
  | _ :: _, [] => false
  | p :: ps, c :: cs => p = c.toLower && matchCI ps cs

/-- Match attempt of `<img[^>]*>` at the head of `l`: on success return the
matched tag text (original case) and the remainder. -/
def tryImg (l : List Char) : Option (List Char × List Char) :=
  if matchCI "<img".data l then
    let p := (l.drop 4).span (fun c => c ≠ '>')
    match p.2 with
    | '>' :: rest2 => some (l.take 4 ++ p.1 ++ ['>'], rest2)
    | _ => none
  else none

/-- Line 58: finditer for the img-tag pattern, IGNORECASE: all non-overlapping
matches, leftmost first.  Fuel: every step consumes at least one character, so
`l.length` suffices. -/
def imgScanF : Nat → List Char → List (List Char)
  | 0, _ => []
  | fuel + 1, l =>
    match tryImg l with
    | some (tag, rest) => tag :: imgScanF fuel rest
    | none =>
      match l with
      | [] => []
      | _ :: t => imgScanF fuel t

def isQuoteChar (c : Char) : Bool := c = '"' || c = '\''

/-- Match attempt of the src/alt attribute pattern (line 61 resp. 63) at the
head of `l`: the attribute name and an equals sign, an opening quote, the
quoted content, a closing quote; `plus` demands nonempty content (src uses a
plus quantifier, alt a star).  Either quote kind may open and either may
close, as in the source's character classes. -/
def tryAttrAt (attr : List Char) (plus : Bool) (l : List Char) : Option (List Char) :=
  if matchCI attr l then
    match l.drop attr.length with
    | q :: rest =>
      if isQuoteChar q then
        let p := rest.span (fun c => !isQuoteChar c)
        match p.2 with
        | _ :: _ => if p.1 ≠ [] || !plus then some p.1 else none
        | [] => none
      else none
    | [] => none
  else none

/-- `re.search` for the attribute pattern: first position with a full match. -/
def searchAttrF (attr : List Char) (plus : Bool) : Nat → List Char → Option (List Char)
  | 0, _ => none
  | fuel + 1, l =>
    match tryAttrAt attr plus l with
    | some content => some content
    | none =>
      match l with
      | [] => none
      | _ :: t => searchAttrF attr plus fuel t

/-- Line 68: the image placeholder; the `(alt: ...)` suffix is omitted when
`alt` is the empty string. -/
def imgPlaceholder (src alt : String) : String :=
  "[IMAGE: " ++ src ++ "]" ++ (if alt ≠ "" then " (alt: " ++ alt ++ ")" else "")

/-- Lines 61-68: extract `src` (required, nonempty) and `alt` (optional, may
be empty) from one matched img tag and build the placeholder. -/
def parseImgTag (tag : List Char) : Option String :=
  match searchAttrF "src=".data true (tag.length + 1) tag with
  | none => none
  | some src =>
    let alt := (searchAttrF "alt=".data false (tag.length + 1) tag).getD []
    some (imgPlaceholder ⟨src⟩ ⟨alt⟩)

/-- Lines 57-68: placeholders for all img tags of the raw markup, in order. -/
def extractImages (html : String) : List String :=
  (imgScanF html.data.length html.data).filterMap parseImgTag

/-- Search for `pat` (case-insensitively) in `l`; return the remainder after
the first occurrence.  Implements the non-greedy `.*?pat`. -/
def findCIF (pat : List Char) : Nat → List Char → Option (List Char)
  | 0, l => if matchCI pat l then some (l.drop pat.length) else none
  | fuel + 1, l =>
    if matchCI pat l then some (l.drop pat.length)
    else
      match l with
      | [] => none
      | _ :: t => findCIF pat fuel t

/-- Match attempt of the script/style block pattern at the head of `l`: the
opening literal, any non-gt characters, a closing angle bracket, then
non-greedily anything up to the closing literal (DOTALL, IGNORECASE); on
success return the remainder after the block. -/
def tryBlock (openPat closePat : List Char) (l : List Char) : Option (List Char) :=
  if matchCI openPat l then
    let p := (l.drop openPat.length).span (fun c => c ≠ '>')
    match p.2 with
    | '>' :: rest2 => findCIF closePat rest2.length rest2
    | _ => none
  else none

/-- Substitution of all script/style block matches by the empty string. -/
def removeBlocksF (openPat closePat : List Char) : Nat → List Char → List Char
  | 0, l => l
  | fuel + 1, l =>
    match tryBlock openPat closePat l with
    | some rest => removeBlocksF openPat closePat fuel rest
    | none =>
      match l with
      | [] => []
      | c :: t => c :: removeBlocksF openPat closePat fuel t

/-- Line 71: strip script blocks. -/
def removeScripts (html : String) : String :=
  ⟨removeBlocksF "<script".data "</script>".data html.data.length html.data⟩

/-- Line 72: strip style blocks. -/
def removeStyles (html : String) : String :=
  ⟨removeBlocksF "<style".data "</style>".data html.data.length html.data⟩

/-- Line 74: strip comment blocks (non-greedy, spanning newlines). -/
def removeCommentsF : Nat → List Char → List Char
  | 0, l => l
  | fuel + 1, l =>
    match (if "<!--".data.isPrefixOf l then findCIF "-->".data (l.drop 4).length (l.drop 4)
           else none) with
    | some rest => removeCommentsF fuel rest
    | none =>
      match l with
      | [] => []
      | c :: t => c :: removeCommentsF fuel t

def removeComments (html : String) : String :=
  ⟨removeCommentsF html.data.length html.data⟩

/-- Line 76: replace each remaining tag (an opening angle bracket, at least
one character that is not a closing angle bracket, then a closing angle
bracket) by a newline. -/
def tagsToNLF : Nat → List Char → List Char
  | 0, l => l
  | fuel + 1, l =>
    match l with
    | [] => []
    | '<' :: t =>
      let p := t.span (fun c => c ≠ '>')
      match p.2 with
      | '>' :: rest => if p.1 ≠ [] then '\n' :: tagsToNLF fuel rest else '<' :: tagsToNLF fuel t
      | _ => '<' :: tagsToNLF fuel t
    | c :: t => c :: tagsToNLF fuel t

def tagsToNewlines (html : String) : String := ⟨tagsToNLF html.data.length html.data⟩

/-- Python `str.replace`: replace all non-overlapping occurrences, left to
right (case-sensitive). -/
def replaceAllF (pat repl : List Char) : Nat → List Char → List Char
  | 0, l => l
  | fuel + 1, l =>
    if pat.isPrefixOf l then repl ++ replaceAllF pat repl fuel (l.drop pat.length)
    else
      match l with
      | [] => []
      | c :: t => c :: replaceAllF pat repl fuel t

def pyReplace (s pat repl : String) : String := ⟨replaceAllF pat.data repl.data s.data.length s.data⟩

/-- Lines 78-79: decode the six named entities, in source order. -/
def decodeEntities (text : String) : String :=
  pyReplace (pyReplace (pyReplace (pyReplace (pyReplace (pyReplace
    text "&nbsp;" " ") "&amp;" "&") "&lt;" "<") "&gt;" ">") "&quot;" "\"") "&apos;" "'"

def isSpTab (c : Char) : Bool := c = ' ' || c = '\t'

def collapseSpacesAux : Bool → List Char → List Char
  | _, [] => []
  | prevSp, c :: rest =>
    if isSpTab c then
      if prevSp then collapseSpacesAux true rest else ' ' :: collapseSpacesAux true rest
    else c :: collapseSpacesAux false rest

/-- Line 83: `re.sub(r'[ \t]+', ' ', text)`. -/
def collapseSpaces (text : String) : String := ⟨collapseSpacesAux false text.data⟩

def isSentencePunct (c : Char) : Bool :=
  c = '。' || c = '！' || c = '？' || c = '.' || c = '!' || c = '?'

def splitKeepAux : List Char → List Char → List String
  | cur, [] => [⟨cur.reverse⟩]
  | cur, c :: rest =>
    if isSentencePunct c then ⟨cur.reverse⟩ :: ⟨[c]⟩ :: splitKeepAux [] rest
    else splitKeepAux (c :: cur) rest

/-- Line 95: `re.split` with a capturing single-character class: alternating
text segments and captured delimiters, beginning and ending with text. -/
def splitKeepPunct (line : String) : List String := splitKeepAux [] line.data

/-- Lines 97-99: the pairs `(sentences[i], sentences[i+1] or "")` visited by
`range(0, len(sentences), 2)`. -/
def pairUp : List String → List (String × String)
  | [] => []
  | [s] => [(s, "")]
  | s :: p :: rest => (s, p) :: pairUp rest

/-- Lines 96-106: accumulate sentence chunks; flush when the chunk exceeds 80
characters or ends in a sentence terminator, dropping blank chunks. -/
def sentenceLoop : List (String × String) → String → List String
  | [], current => if pyStrip current ≠ "" then [pyStrip current] else []
  | (sentence, punct) :: rest, current =>
    let current' := current ++ sentence ++ punct
    if current'.length > 80 ∨
        (punct = "。" ∨ punct = "！" ∨ punct = "？" ∨ punct = "." ∨ punct = "!" ∨ punct = "?") then
      (if pyStrip current' ≠ "" then [pyStrip current'] else []) ++ sentenceLoop rest ""
    else sentenceLoop rest current'

/-- Lines 91-108: lines longer than 100 characters are re-wrapped at sentence
boundaries; shorter lines are kept as they are. -/
def splitLongLine (line : String) : List String :=
  if line.length > 100 then sentenceLoop (pairUp (splitKeepPunct line)) "" else [line]

/-- Lines 70-108: the local `normalized_lines` of `strip_html_tags` - the
cleaned body-text lines after block removal, tag removal, entity decoding,
whitespace normalization and long-line re-wrapping. -/
def textLines (html : String) : List String :=
  (((pySplit (collapseSpaces (decodeEntities (tagsToNewlines
      (removeComments (removeStyles (removeScripts html)))))) '\n').map pyStrip).filter
    (fun l => l ≠ "")).flatMap splitLongLine

/-- Lines 110-114: the final line list - when any image placeholder exists, a
blank line, the image-section header and the placeholders are appended. -/
def stripLines (html : String) : List String :=
  if extractImages html ≠ [] then
    textLines html ++ ("" :: "--- 画像一覧 ---" :: extractImages html)
  else textLines html

/-- monitor.py `strip_html_tags` (lines 54-116). -/
def strip_html_tags (html : String) : String := joinNL (stripLines html)

/-! ### MD5 and get_text_content_hash (monitor.py lines 119-122)

MD5 per RFC 1321, over `Nat` with explicit reduction modulo 2^32; bytes are
`Nat` values below 256.  Used by the source only through `hexdigest()` for
equality comparison of normalized texts (and for cache file names). -/

/-- Reduce modulo 2^32. -/
def m32 (n : Nat) : Nat := n % 4294967296

/-- Left-rotate a 32-bit value (an argument below 2^32) by `s` bits. -/
def rotl32 (x s : Nat) : Nat := (x * 2 ^ s) % 4294967296 + x / 2 ^ (32 - s)

/-- Bitwise complement within 32 bits (for an argument below 2^32). -/
def not32 (x : Nat) : Nat := 4294967295 - x

def md5K : List Nat :=
  [3614090360, 3905402710, 606105819, 3250441966, 4118548399, 1200080426,
   2821735955, 4249261313, 1770035416, 2336552879, 4294925233, 2304563134,
   1804603682, 4254626195, 2792965006, 1236535329, 4129170786, 3225465664,
   643717713, 3921069994, 3593408605, 38016083, 3634488961, 3889429448,
   568446438, 3275163606, 4107603335, 1163531501, 2850285829, 4243563512,
   1735328473, 2368359562, 4294588738, 2272392833, 1839030562, 4259657740,
   2763975236, 1272893353, 4139469664, 3200236656, 681279174, 3936430074,
   3572445317, 76029189, 3654602809, 3873151461, 530742520, 3299628645,
   4096336452, 1126891415, 2878612391, 4237533241, 1700485571, 2399980690,
   4293915773, 2240044497, 1873313359, 4264355552, 2734768916, 1309151649,
   4149444226, 3174756917, 718787259, 3951481745]

def md5S : List Nat :=
  [7, 12, 17, 22, 7, 12, 17, 22, 7, 12, 17, 22, 7, 12, 17, 22,
   5, 9, 14, 20, 5, 9, 14, 20, 5, 9, 14, 20, 5, 9, 14, 20,
   4, 11, 16, 23, 4, 11, 16, 23, 4, 11, 16, 23, 4, 11, 16, 23,
   6, 10, 15, 21, 6, 10, 15, 21, 6, 10, 15, 21, 6, 10, 15, 21]

/-- One MD5 round on state `(a, b, c, d)` with message words `m`. -/
def md5Round (m : List Nat) (st : Nat × Nat × Nat × Nat) (i : Nat) : Nat × Nat × Nat × Nat :=
  let (a, b, c, d) := st
  let f :=
    if i < 16 then (b &&& c) ||| (not32 b &&& d)
    else if i < 32 then (d &&& b) ||| (not32 d &&& c)
    else if i < 48 then b ^^^ c ^^^ d
    else c ^^^ (b ||| not32 d)
  let g :=
    if i < 16 then i
    else if i < 32 then (5 * i + 1) % 16
    else if i < 48 then (3 * i + 5) % 16
    else (7 * i) % 16
  let f' := m32 (f + a + md5K.getD i 0 + m.getD g 0)
  (d, m32 (b + rotl32 f' (md5S.getD i 0)), b, c)

/-- Decode a 64-byte block into 16 little-endian 32-bit words. -/
def md5Words : List Nat → List Nat
  | b0 :: b1 :: b2 :: b3 :: rest => (b0 + 256 * b1 + 65536 * b2 + 16777216 * b3) :: md5Words rest
  | _ => []

def md5Block (st : Nat × Nat × Nat × Nat) (block : List Nat) : Nat × Nat × Nat × Nat :=
  let m := md5Words block
  let r := (List.range 64).foldl (md5Round m) st
  (m32 (st.1 + r.1), m32 (st.2.1 + r.2.1), m32 (st.2.2.1 + r.2.2.1), m32 (st.2.2.2 + r.2.2.2))

def chunks64F : Nat → List Nat → List (List Nat)
  | 0, _ => []
  | _, [] => []
  | fuel + 1, l => l.take 64 :: chunks64F fuel (l.drop 64)

/-- The `k` little-endian bytes of a value. -/
def leBytes : Nat → Nat → List Nat
  | 0, _ => []
  | k + 1, v => v % 256 :: leBytes k (v / 256)

/-- MD5 padding: one 0x80 byte, zeros to 56 mod 64, then the bit length as
eight little-endian bytes. -/
def md5Pad (msg : List Nat) : List Nat :=
  let len := msg.length
  msg ++ [128] ++ List.replicate ((119 - len % 64) % 64) 0 ++
    leBytes 8 ((8 * len) % 18446744073709551616)

def hexDigit (n : Nat) : Char := if n < 10 then Char.ofNat (48 + n) else Char.ofNat (87 + n)

def byteHex (b : Nat) : List Char := [hexDigit (b / 16), hexDigit (b % 16)]

/-- MD5 hex digest (lowercase) of a byte list. -/
def md5Hex (msg : List Nat) : String :=
  let init : Nat × Nat × Nat × Nat := (1732584193, 4023233417, 2562383102, 271733878)
  let padded := md5Pad msg
  let r := (chunks64F (padded.length + 1) padded).foldl md5Block init
  ⟨(leBytes 4 r.1 ++ leBytes 4 r.2.1 ++ leBytes 4 r.2.2.1 ++ leBytes 4 r.2.2.2).flatMap byteHex⟩

/-- UTF-8 encoding of one character as bytes. -/
def utf8Char (c : Char) : List Nat :=
  let n := c.toNat
  if n < 128 then [n]
  else if n < 2048 then [192 + n / 64, 128 + n % 64]
  else if n < 65536 then [224 + n / 4096, 128 + n / 64 % 64, 128 + n % 64]
  else [240 + n / 262144, 128 + n / 4096 % 64, 128 + n / 64 % 64, 128 + n % 64]

def utf8Encode (s : String) : List Nat := s.data.flatMap utf8Char

/-- monitor.py `get_text_content_hash` (lines 119-122): the MD5 hex digest of
the UTF-8 encoded normalized text. -/
def get_text_content_hash (html : String) : String :=
  md5Hex (utf8Encode (strip_html_tags html))

/-! ### JSON loading (Python json.load as used for hashes.json)

A parser for JSON documents of the shape json.dump produces for the hash
store: an object whose values are strings.  Escapes inside strings follow
JSON (the common single-character escapes and the four-hex-digit form; the
store's keys and values are URLs and hex digests, for which this is exact).
A parse failure models the JSONDecodeError that `json.load` raises. -/

def lbraceC : Char := Char.ofNat 123

def rbraceC : Char := Char.ofNat 125

def jsonWS (c : Char) : Bool := c = ' ' || c = '\t' || c = '\n' || c = '\r'

def skipWS (l : List Char) : List Char := l.dropWhile jsonWS

def hexVal (c : Char) : Option Nat :=
  if '0' ≤ c ∧ c ≤ '9' then some (c.toNat - 48)
  else if 'a' ≤ c ∧ c ≤ 'f' then some (c.toNat - 87)
  else if 'A' ≤ c ∧ c ≤ 'F' then some (c.toNat - 55)
  else none

/-- Parse the body of a JSON string after the opening quote; returns the
decoded characters and the remainder after the closing quote. -/
def parseJStringAux : Nat → List Char → Option (List Char × List Char)
  | 0, _ => none
  | fuel + 1, l =>
    match l with
    | [] => none
    | '"' :: rest => some ([], rest)
    | '\\' :: 'u' :: h1 :: h2 :: h3 :: h4 :: rest =>
      match hexVal h1, hexVal h2, hexVal h3, hexVal h4 with
      | some a, some b, some c, some d =>
        match parseJStringAux fuel rest with
        | some (s, r) => some (Char.ofNat (4096 * a + 256 * b + 16 * c + d) :: s, r)
        | none => none
      | _, _, _, _ => none
    | '\\' :: e :: rest =>
      let c? : Option Char :=
        if e = '"' then some '"'
        else if e = '\\' then some '\\'
        else if e = '/' then some '/'
        else if e = 'n' then some '\n'
        else if e = 't' then some '\t'
        else if e = 'r' then some '\r'
        else if e = 'b' then some (Char.ofNat 8)
        else if e = 'f' then some (Char.ofNat 12)
        else none
      match c? with
      | some c =>
        match parseJStringAux fuel rest with
        | some (s, r) => some (c :: s, r)
        | none => none
      | none => none
    | c :: rest =>
      if c.toNat < 32 then none
      else
        match parseJStringAux fuel rest with
        | some (s, r) => some (c :: s, r)
        | none => none

/-- Parse the members of a nonempty JSON object of string values, starting
after the opening brace (or after a comma); consumes the closing brace. -/
def parsePairsF : Nat → List Char → Option (List (String × String) × List Char)
  | 0, _ => none
  | fuel + 1, l =>
    match skipWS l with
    | '"' :: rest =>
      match parseJStringAux (rest.length + 1) rest with
      | some (k, r1) =>
        match skipWS r1 with
        | ':' :: r2 =>
          match skipWS r2 with
          | '"' :: r3 =>
            match parseJStringAux (r3.length + 1) r3 with
            | some (v, r4) =>
              match skipWS r4 with
              | ',' :: r5 =>
                match parsePairsF fuel r5 with
                | some (ps, r6) => some ((⟨k⟩, ⟨v⟩) :: ps, r6)
                | none => none
              | c :: r5 => if c = rbraceC then some ([(⟨k⟩, ⟨v⟩)], r5) else none
              | [] => none
            | none => none
          | _ => none
        | _ => none
      | none => none
    | _ => none

/-- Python dict lookup `m.get(k)`. -/
def dictGet (m : List (String × String)) (k : String) : Option String :=
  match m with
  | [] => none
  | (a, b) :: rest => if a = k then some b else dictGet rest k

/-- Python dict assignment `m[k] = v`: update in place, else append. -/
def dictSet (m : List (String × String)) (k v : String) : List (String × String) :=
  match m with
  | [] => [(k, v)]
  | (a, b) :: rest => if a = k then (a, v) :: rest else (a, b) :: dictSet rest k v

/-- Python `json.load` for a string-to-string object document; `none` models a
raised JSONDecodeError.  Duplicate keys are resolved by dict assignment,
keeping the last occurrence, as in Python. -/
def json_load (s : String) : Option (List (String × String)) :=
  match skipWS s.data with
  | c :: rest =>
    if c = lbraceC then
      match skipWS rest with
      | c2 :: rest2 =>
        if c2 = rbraceC then (if skipWS rest2 = [] then some [] else none)
        else
          match parsePairsF (rest.length + 1) rest with
          | some (ps, r) =>
            if skipWS r = [] then some (ps.foldl (fun m kv => dictSet m kv.1 kv.2) [])
            else none
          | none => none
      | [] => none
    else none
  | [] => none

/-! ### Orchestration (monitor.py lines 27-38, 125-141, 240-291)

The file system is modelled explicitly: the hash file as an optional string
(its content, or `none` when missing), the content cache as a mapping from
file name to file content, and the fetcher as a function from URL to an
optional response body (`none` models a raised/caught fetch error).  The
notifier and stdout logging are thin I/O outside every claim; the printed
classification tags NEW / CHANGED / OK and the error log are modelled by
`Outcome`. -/

/-- monitor.py `load_hashes` (lines 27-32): missing file yields an empty dict;
otherwise the result of `json.load`, whose failure is NOT caught and aborts
the run (modelled by `none`). -/
def load_hashes (hashFile : Option String) : Option (List (String × String)) :=
  match hashFile with
  | some content => json_load content
  | none => some []

/-- Cache file name for a URL (lines 128-129, 136-137): MD5 of the URL plus
a txt extension. -/
def cacheKey (url : String) : String := md5Hex (utf8Encode url) ++ ".txt"

/-- monitor.py `save_content` (lines 125-131). -/
def save_content (cache : List (String × String)) (url content : String) :
    List (String × String) :=
  dictSet cache (cacheKey url) content

/-- monitor.py `load_content` (lines 134-141): `none` when no cache file
exists for the URL. -/
def load_content (cache : List (String × String)) (url : String) : Option String :=
  dictGet cache (cacheKey url)

/-- The mutable state of one run: the fingerprint dict and the content cache
directory. -/
structure MonState where
  hashes : List (String × String)
  cache : List (String × String)
deriving DecidableEq, Repr

structure ChangeReport where
  url : String
  text_diff : String
deriving DecidableEq, Repr

/-- Per-URL classification, as printed by main's log lines. -/
inductive Outcome
  | fetchFailed
  | new
  | changed
  | unchanged
deriving DecidableEq, Repr

/-- The sentinel diff body used when no prior content is available (line 265). -/
def priorContentMissing : String := "前回のコンテンツが見つかりません"

/-- One iteration of main's URL loop (lines 246-281).  A failed fetch skips
the URL (`continue`); a URL with no stored fingerprint is recorded as NEW
with no report; a changed fingerprint produces a report whose diff body
falls back to the sentinel when the cached content is missing or empty
(Python truthiness of `old_html`), and updates fingerprint and cache; an
unchanged fingerprint leaves everything untouched. -/
def processUrl (fetch : String → Option String) (st : MonState) (url : String) :
    MonState × Option ChangeReport × Outcome :=
  match fetch url with
  | none => (st, none, Outcome.fetchFailed)
  | some current_html =>
    let current_hash := get_text_content_hash current_html
    match dictGet st.hashes url with
    | none =>
      (MonState.mk (dictSet st.hashes url current_hash) (save_content st.cache url current_html),
        none, Outcome.new)
    | some prev_hash =>
      if current_hash ≠ prev_hash then
        let text_diff :=
          match load_content st.cache url with
          | some oh =>
            if oh ≠ "" then
              get_diff_summary (strip_html_tags oh) (strip_html_tags current_html) 20
            else priorContentMissing
          | none => priorContentMissing
        (MonState.mk (dictSet st.hashes url current_hash) (save_content st.cache url current_html),
          some (ChangeReport.mk url text_diff), Outcome.changed)
      else (st, none, Outcome.unchanged)

/-- Main's loop over TARGET_URLS (lines 244-281), collecting the change
reports in order.  After the loop the source persists the hash dict
wholesale and notifies once when the report list is nonempty (lines
283-288); both are thin I/O on the returned values. -/
def runMonitor (fetch : String → Option String) : List String → MonState →
    MonState × List ChangeReport
  | [], st => (st, [])
  | url :: rest, st =>
    let r := processUrl fetch st url
    let rr := runMonitor fetch rest r.1
    (rr.1, (match r.2.1 with | some rep => [rep] | none => []) ++ rr.2)

/-! ### Concrete pages used in the redaction analysis -/

/-- A page with a CSRF token confined to a tag attribute. -/
def csrfPageA : String :=
  "<form><input type=\"hidden\" name=\"csrf\" value=\"a1b2c3d4e5f6\"><p>Hello</p></form>"

/-- The same page with the CSRF token changed. -/
def csrfPageB : String :=
  "<form><input type=\"hidden\" name=\"csrf\" value=\"f9e8d7c6b5a4\"><p>Hello</p></form>"

/-- A page whose only volatile token (a generation timestamp) sits in the
visible text content. -/
def tsPageOld : String :=
  "<html><body><p>Welcome!</p><p>cache generated 1717171717</p></body></html>"

/-- The same page with only the timestamp changed. -/
def tsPageNew : String :=
  "<html><body><p>Welcome!</p><p>cache generated 1717171718</p></body></html>"

/-! ### Helper lemmas -/

theorem pyStartsWith_append (p s : String) : pyStartsWith (p ++ s) p = true := by
  have h : (p ++ s).data = p.data ++ s.data := String.data_append p s
  rw [pyStartsWith, h]
  exact List.isPrefixOf_iff_prefix.mpr (List.prefix_append p.data s.data)

theorem removedBullet_not_omit (x : String) :
    pyStartsWith ("  - " ++ x) "  ... 他 " = false := rfl

theorem addedBullet_not_omit (x : String) :
    pyStartsWith ("  + " ++ x) "  ... 他 " = false := rfl

theorem omitLine_not_removedBullet (y z : String) :
    pyStartsWith ("  ... 他 " ++ y ++ z) "  - " = false := rfl

theorem omitLine_not_addedBullet (y z : String) :
    pyStartsWith ("  ... 他 " ++ y ++ z) "  + " = false := rfl

/-- The bullet lines of a section all carry the section's bullet prefix. -/
theorem bullets_countP (xs : List String) (mc : Nat) (pre : String) :
    (((xs.take mc).filter (fun l => l ≠ "")).map (fun l => pre ++ l)).countP
        (fun l => pyStartsWith l pre) =
      ((xs.take mc).filter (fun l => l ≠ "")).length := by
  rw [← List.length_map ((xs.take mc).filter (fun l => l ≠ "")) (fun l => pre ++ l)]
  rw [List.countP_eq_length]
  intro a ha
  obtain ⟨x, _, rfl⟩ := List.mem_map.mp ha
  simp [pyStartsWith_append]

/-- The bullet lines of a section number at most `mc`. -/
theorem bullets_length_le (xs : List String) (mc : Nat) :
    ((xs.take mc).filter (fun l => l ≠ "")).length ≤ mc :=
  le_trans (List.length_filter_le _ _) (by simp [List.length_take])

theorem omitLine_starts (y z : String) :
    pyStartsWith ("  ... 他 " ++ y ++ z) "  ... 他 " = true := by
  rw [String.append_assoc]
  exact pyStartsWith_append "  ... 他 " (y ++ z)

theorem removedHeader_not_bullet : pyStartsWith "【削除された内容】" "  - " = false := rfl

theorem removedHeader_not_omit : pyStartsWith "【削除された内容】" "  ... 他 " = false := rfl

theorem addedHeader_not_bullet : pyStartsWith "【追加された内容】" "  + " = false := rfl

theorem addedHeader_not_omit : pyStartsWith "【追加された内容】" "  ... 他 " = false := rfl

theorem sep_not_addedBullet : pyStartsWith "" "  + " = false := rfl

theorem sep_not_omit : pyStartsWith "" "  ... 他 " = false := rfl

/-- Properties of the removed section for an arbitrary extracted list: the
bullet cap, and presence resp. absence of the trailing omitted-count line. -/
theorem renderRemoved_props (removed : List String) (mc : Nat) :
    (renderRemoved removed mc).countP (fun l => pyStartsWith l "  - ") ≤ mc ∧
    (removed.length > mc →
      (renderRemoved removed mc).countP (fun l => pyStartsWith l "  ... 他 ") = 1 ∧
      (renderRemoved removed mc).getLast? =
        some ("  ... 他 " ++ toString (removed.length - mc) ++ " 行")) ∧
    (removed.length ≤ mc →
      (renderRemoved removed mc).countP (fun l => pyStartsWith l "  ... 他 ") = 0) := by
  by_cases hr : removed = []
  · subst hr
    refine ⟨by simp [renderRemoved], fun h => absurd h (by simp), fun _ => by simp [renderRemoved]⟩
  · have hB := bullets_countP removed mc "  - "
    have hBle := bullets_length_le removed mc
    have hBomit : (((removed.take mc).filter (fun l => l ≠ "")).map (fun l => "  - " ++ l)).countP
        (fun l => pyStartsWith l "  ... 他 ") = 0 := by
      rw [List.countP_eq_zero]
      intro a ha
      obtain ⟨x, _, rfl⟩ := List.mem_map.mp ha
      simp [removedBullet_not_omit]
    by_cases hlen : removed.length > mc
    · have hRR : renderRemoved removed mc =
          "【削除された内容】" ::
            (((removed.take mc).filter (fun l => l ≠ "")).map (fun l => "  - " ++ l) ++
              ["  ... 他 " ++ toString (removed.length - mc) ++ " 行"]) := by
        simp [renderRemoved, hr, hlen]
      refine ⟨?_, fun _ => ⟨?_, ?_⟩, fun h => absurd hlen (not_lt.mpr h)⟩
      · rw [hRR, List.countP_cons, List.countP_append, hB, removedHeader_not_bullet]
        have hO : (["  ... 他 " ++ toString (removed.length - mc) ++ " 行"]).countP
            (fun l => pyStartsWith l "  - ") = 0 := by
          simp [omitLine_not_removedBullet]
        rw [hO]
        simpa using hBle
      · rw [hRR, List.countP_cons, List.countP_append, hBomit, removedHeader_not_omit]
        have hO : (["  ... 他 " ++ toString (removed.length - mc) ++ " 行"]).countP
            (fun l => pyStartsWith l "  ... 他 ") = 1 := by
          simp [omitLine_starts]
        rw [hO]
        simp
      · rw [hRR, ← List.cons_append]
        exact List.getLast?_concat _
    · have hRR : renderRemoved removed mc =
          "【削除された内容】" ::
            ((removed.take mc).filter (fun l => l ≠ "")).map (fun l => "  - " ++ l) := by
        simp [renderRemoved, hr, hlen]
      refine ⟨?_, fun h => absurd h hlen, fun _ => ?_⟩
      · rw [hRR, List.countP_cons, hB, removedHeader_not_bullet]
        simpa using hBle
      · rw [hRR, List.countP_cons, hBomit, removedHeader_not_omit]
        simp

/-- Properties of the added section for arbitrary extracted lists. -/
theorem renderAdded_props (removed added : List String) (mc : Nat) :
    (renderAdded removed added mc).countP (fun l => pyStartsWith l "  + ") ≤ mc ∧
    (added.length > mc →
      (renderAdded removed added mc).countP (fun l => pyStartsWith l "  ... 他 ") = 1 ∧
      (renderAdded removed added mc).getLast? =
        some ("  ... 他 " ++ toString (added.length - mc) ++ " 行")) ∧
    (added.length ≤ mc →
      (renderAdded removed added mc).countP (fun l => pyStartsWith l "  ... 他 ") = 0) := by
  by_cases ha : added = []
  · subst ha
    refine ⟨by simp [renderAdded], fun h => absurd h (by simp), fun _ => by simp [renderAdded]⟩
  · have hB := bullets_countP added mc "  + "
    have hBle := bullets_length_le added mc
    have hBomit : (((added.take mc).filter (fun l => l ≠ "")).map (fun l => "  + " ++ l)).countP
        (fun l => pyStartsWith l "  ... 他 ") = 0 := by
      rw [List.countP_eq_zero]
      intro a ha'
      obtain ⟨x, _, rfl⟩ := List.mem_map.mp ha'
      simp [addedBullet_not_omit]
    have hsepB : (if removed ≠ [] then [""] else []).countP
        (fun l => pyStartsWith l "  + ") = 0 := by
      by_cases hrm : removed = [] <;> simp [hrm, sep_not_addedBullet]
    have hsepO : (if removed ≠ [] then [""] else []).countP
        (fun l => pyStartsWith l "  ... 他 ") = 0 := by
      by_cases hrm : removed = [] <;> simp [hrm, sep_not_omit]
    by_cases hlen : added.length > mc
    · have hRA : renderAdded removed added mc =
          (if removed ≠ [] then [""] else []) ++
            ("【追加された内容】" ::
              (((added.take mc).filter (fun l => l ≠ "")).map (fun l => "  + " ++ l) ++
                ["  ... 他 " ++ toString (added.length - mc) ++ " 行"])) := by
        simp [renderAdded, ha, hlen]
      refine ⟨?_, fun _ => ⟨?_, ?_⟩, fun h => absurd hlen (not_lt.mpr h)⟩
      · rw [hRA, List.countP_append, hsepB, List.countP_cons, List.countP_append, hB,
          addedHeader_not_bullet]
        have hO : (["  ... 他 " ++ toString (added.length - mc) ++ " 行"]).countP
            (fun l => pyStartsWith l "  + ") = 0 := by
          simp [omitLine_not_addedBullet]
        rw [hO]
        simpa using hBle
      · rw [hRA, List.countP_append, hsepO, List.countP_cons, List.countP_append, hBomit,
          addedHeader_not_omit]
        have hO : (["  ... 他 " ++ toString (added.length - mc) ++ " 行"]).countP
            (fun l => pyStartsWith l "  ... 他 ") = 1 := by
          simp [omitLine_starts]
        rw [hO]
        simp
      · have hshift : (if removed ≠ [] then [""] else []) ++
              ("【追加された内容】" ::
                (((added.take mc).filter (fun l => l ≠ "")).map (fun l => "  + " ++ l) ++
                  ["  ... 他 " ++ toString (added.length - mc) ++ " 行"])) =
            ((if removed ≠ [] then [""] else []) ++
              ("【追加された内容】" ::
                ((added.take mc).filter (fun l => l ≠ "")).map (fun l => "  + " ++ l))) ++
              ["  ... 他 " ++ toString (added.length - mc) ++ " 行"] := by
          simp
        rw [hRA, hshift]
        exact List.getLast?_concat _
    · have hRA : renderAdded removed added mc =
          (if removed ≠ [] then [""] else []) ++
            ("【追加された内容】" ::
              ((added.take mc).filter (fun l => l ≠ "")).map (fun l => "  + " ++ l)) := by
        simp [renderAdded, ha, hlen]
      refine ⟨?_, fun h => absurd h hlen, fun _ => ?_⟩
      · rw [hRA, List.countP_append, hsepB, List.countP_cons, hB, addedHeader_not_bullet]
        simpa using hBle
      · rw [hRA, List.countP_append, hsepO, List.countP_cons, hBomit, addedHeader_not_omit]
        simp

/-! ### Scanner lemmas for the parametric image-extraction theorem

These lemmas characterize the img-tag scan and attribute search of
`strip_html_tags` on markup of the shape: a comment opener, an arbitrary
angle-bracket-free prefix, an img tag with an arbitrary safe src value, and
an arbitrary suffix. -/

theorem toLower_eq_of_nonletter (c d : Char) (hd : d.toNat < 97 ∨ 122 < d.toNat)
    (h : c.toLower = d) : c = d := by
  unfold Char.toLower at h
  simp only [] at h
  by_cases hc : c.toNat ≥ 65 ∧ c.toNat ≤ 90
  · rw [if_pos hc] at h
    exfalso
    have hvalid : (c.toNat + 32).isValidChar := Or.inl (by omega)
    have ht : (Char.ofNat (c.toNat + 32)).toNat = c.toNat + 32 := by
      rw [Char.ofNat, dif_pos hvalid]
      rfl
    rw [h] at ht
    omega
  · rw [if_neg hc] at h
    exact h

theorem imgScanF_nil (f : Nat) : imgScanF f [] = [] := by cases f <;> rfl

theorem matchCI_length : ∀ (p l : List Char), matchCI p l = true → p.length ≤ l.length := by
  intro p
  induction p with
  | nil => intro l _; simp
  | cons a as ih =>
    intro l h
    cases l with
    | nil => simp [matchCI] at h
    | cons c cs =>
      have h' : matchCI as cs = true := by
        have := h
        simp [matchCI, Bool.and_eq_true] at this
        exact this.2
      have := ih cs h'
      simp
      omega

theorem length_dropWhile_le' (p : Char → Bool) (l : List Char) :
    (l.dropWhile p).length ≤ l.length := by
  induction l with
  | nil => simp
  | cons c t ih =>
    rw [List.dropWhile_cons]
    by_cases h : p c = true
    · simp [h]
      omega
    · simp [h]

theorem tryImg_shrink (l tag rest : List Char) (h : tryImg l = some (tag, rest)) :
    rest.length < l.length := by
  unfold tryImg at h
  by_cases hm : matchCI "<img".data l = true
  · rw [if_pos hm] at h
    rw [List.span_eq_take_drop] at h
    cases hd : (l.drop 4).dropWhile (fun c => c ≠ '>') with
    | nil => rw [hd] at h; simp at h
    | cons c rest2 =>
      rw [hd] at h
      by_cases hc : c = '>'
      · subst hc
        simp at h
        obtain ⟨-, hr⟩ := h
        subst hr
        have hlen : ('>' :: rest2).length ≤ (l.drop 4).length := by
          rw [← hd]; exact length_dropWhile_le' _ _
        have h4 : (4 : Nat) ≤ l.length := by
          have := matchCI_length "<img".data l hm
          simpa using this
        rw [List.length_drop] at hlen
        simp at hlen
        omega
      · simp [hc] at h
  · rw [if_neg hm] at h
    simp at h

theorem imgScanF_fuel : ∀ (n : Nat) (l : List Char), l.length ≤ n →
    ∀ f1 f2, l.length ≤ f1 → l.length ≤ f2 → imgScanF f1 l = imgScanF f2 l := by
  intro n
  induction n with
  | zero =>
    intro l hl f1 f2 _ _
    have : l = [] := List.eq_nil_of_length_eq_zero (Nat.le_zero.mp hl)
    subst this
    rw [imgScanF_nil, imgScanF_nil]
  | succ m ih =>
    intro l hl f1 f2 h1 h2
    cases l with
    | nil => rw [imgScanF_nil, imgScanF_nil]
    | cons c t =>
      cases f1 with
      | zero => simp at h1
      | succ g1 =>
        cases f2 with
        | zero => simp at h2
        | succ g2 =>
          cases htry : tryImg (c :: t) with
          | none =>
            simp only [imgScanF, htry]
            have hlt : t.length ≤ m := by simp at hl; omega
            exact ih t hlt g1 g2 (by simp at h1; omega) (by simp at h2; omega)
          | some pr =>
            obtain ⟨tag, rest⟩ := pr
            simp only [imgScanF, htry]
            have hsh := tryImg_shrink (c :: t) tag rest htry
            have hlt : rest.length ≤ m := by simp at hsh hl; omega
            have hr1 : rest.length ≤ g1 := by simp at hsh h1; omega
            have hr2 : rest.length ≤ g2 := by simp at hsh h2; omega
            rw [ih rest hlt g1 g2 hr1 hr2]

theorem tryImg_none_of_head (c : Char) (l : List Char) (hc : c ≠ '<') :
    tryImg (c :: l) = none := by
  have h1 : matchCI "<img".data (c :: l) = false := by
    have hne : ¬ ('<' : Char) = c.toLower := by
      intro h
      exact hc (toLower_eq_of_nonletter c '<' (Or.inl (by decide)) h.symm)
    show (decide (('<' : Char) = c.toLower) && matchCI "img".data l) = false
    rw [decide_eq_false hne, Bool.false_and]
  simp [tryImg, h1]

theorem imgScanF_skip_front : ∀ (l rest : List Char), (∀ c ∈ l, c ≠ '<') →
    ∀ f, imgScanF (l.length + f) (l ++ rest) = imgScanF f rest := by
  intro l
  induction l with
  | nil => intro rest _ f; simp
  | cons c t ih =>
    intro rest h f
    have h1 : tryImg (c :: (t ++ rest)) = none :=
      tryImg_none_of_head c _ (h c (List.mem_cons_self c _))
    have harith : (c :: t).length + f = (t.length + f) + 1 := by simp; omega
    rw [harith]
    show imgScanF ((t.length + f) + 1) (c :: (t ++ rest)) = imgScanF f rest
    simp only [imgScanF, h1]
    exact ih rest (fun d hd => h d (List.mem_cons_of_mem c hd)) f

theorem imgScanF_step_none (f : Nat) (c : Char) (l : List Char)
    (h : tryImg (c :: l) = none) :
    imgScanF (f + 1) (c :: l) = imgScanF f l := by
  simp only [imgScanF, h]

theorem takeWhile_all_append (p : Char → Bool) :
    ∀ (l1 l2 : List Char), (∀ c ∈ l1, p c = true) →
    (l1 ++ l2).takeWhile p = l1 ++ l2.takeWhile p := by
  intro l1
  induction l1 with
  | nil => intro l2 _; rfl
  | cons c t ih =>
    intro l2 h
    rw [List.cons_append, List.takeWhile_cons]
    simp [h c (List.mem_cons_self c _), ih l2 (fun d hd => h d (List.mem_cons_of_mem c hd))]

theorem dropWhile_all_append (p : Char → Bool) :
    ∀ (l1 l2 : List Char), (∀ c ∈ l1, p c = true) →
    (l1 ++ l2).dropWhile p = l2.dropWhile p := by
  intro l1
  induction l1 with
  | nil => intro l2 _; rfl
  | cons c t ih =>
    intro l2 h
    rw [List.cons_append, List.dropWhile_cons]
    simp [h c (List.mem_cons_self c _), ih l2 (fun d hd => h d (List.mem_cons_of_mem c hd))]

/-- The img-tag match at the tag position: the whole tag is consumed and the
matched text is returned. -/
theorem tryImg_at_tag (B post : List Char) (hB : ∀ c ∈ B, c ≠ '>') :
    tryImg ('<' :: 'i' :: 'm' :: 'g' :: (B ++ '>' :: post)) =
      some (('<' :: 'i' :: 'm' :: 'g' :: B) ++ ['>'], post) := by
  have hm : matchCI "<img".data ('<' :: 'i' :: 'm' :: 'g' :: (B ++ '>' :: post)) = true := rfl
  have hBp : ∀ c ∈ B, (fun c => decide (c ≠ '>')) c = true := by
    intro c hc
    simp [hB c hc]
  unfold tryImg
  rw [if_pos hm, List.span_eq_take_drop]
  have hdrop : ((('<' : Char) :: 'i' :: 'm' :: 'g' :: (B ++ '>' :: post)).drop 4) =
      B ++ '>' :: post := rfl
  rw [hdrop]
  rw [takeWhile_all_append _ B ('>' :: post) hBp]
  rw [dropWhile_all_append _ B ('>' :: post) hBp]
  have ht : (('>' : Char) :: post).takeWhile (fun c => decide (c ≠ '>')) = [] := rfl
  have hd : (('>' : Char) :: post).dropWhile (fun c => decide (c ≠ '>')) = '>' :: post := rfl
  rw [ht, hd]
  simp

theorem tryAttrAt_head_none (a0 : Char) (arest : List Char) (plus : Bool)
    (c : Char) (t : List Char) (h : a0 ≠ c.toLower) :
    tryAttrAt (a0 :: arest) plus (c :: t) = none := by
  have hm : matchCI (a0 :: arest) (c :: t) = false := by
    show (decide (a0 = c.toLower) && matchCI arest t) = false
    rw [decide_eq_false h, Bool.false_and]
  simp [tryAttrAt, hm]

theorem searchAttrF_skip_front (a0 : Char) (arest : List Char) (plus : Bool) :
    ∀ (l rest : List Char), (∀ c ∈ l, a0 ≠ c.toLower) →
    ∀ f, searchAttrF (a0 :: arest) plus (l.length + f) (l ++ rest) =
      searchAttrF (a0 :: arest) plus f rest := by
  intro l
  induction l with
  | nil => intro rest _ f; simp
  | cons c t ih =>
    intro rest h f
    have h1 : tryAttrAt (a0 :: arest) plus (c :: (t ++ rest)) = none :=
      tryAttrAt_head_none a0 arest plus c _ (h c (List.mem_cons_self c _))
    have harith : (c :: t).length + f = (t.length + f) + 1 := by simp; omega
    rw [harith]
    show searchAttrF (a0 :: arest) plus ((t.length + f) + 1) (c :: (t ++ rest)) =
      searchAttrF (a0 :: arest) plus f rest
    simp only [searchAttrF, h1]
    exact ih rest (fun d hd => h d (List.mem_cons_of_mem c hd)) f

/-- Success of the src-attribute match at its position inside the tag. -/
theorem tryAttrAt_src (src tail : List Char) (hne : src ≠ [])
    (hq : ∀ c ∈ src, c ≠ '"' ∧ c ≠ '\'') :
    tryAttrAt "src=".data true ('s' :: 'r' :: 'c' :: '=' :: '"' :: (src ++ '"' :: tail)) =
      some src := by
  have hm : matchCI "src=".data ('s' :: 'r' :: 'c' :: '=' :: '"' :: (src ++ '"' :: tail)) =
      true := rfl
  have hsafe : ∀ c ∈ src, (fun c => !isQuoteChar c) c = true := by
    intro c hc
    simp [isQuoteChar, (hq c hc).1, (hq c hc).2]
  have hspan : (src ++ '"' :: tail).span (fun c => !isQuoteChar c) = (src, '"' :: tail) := by
    rw [List.span_eq_take_drop, takeWhile_all_append _ src _ hsafe,
      dropWhile_all_append _ src _ hsafe]
    simp [isQuoteChar]
  unfold tryAttrAt
  rw [if_pos hm]
  rw [show List.drop (['s', 'r', 'c', '='] : List Char).length
      ('s' :: 'r' :: 'c' :: '=' :: '"' :: (src ++ '"' :: tail)) =
    '"' :: (src ++ '"' :: tail) from rfl]
  show (if isQuoteChar '"' = true then
      let p := List.span (fun c => !isQuoteChar c) (src ++ '"' :: tail)
      match p.2 with
      | _ :: _ => if (decide (p.1 ≠ []) || !true) = true then some p.1 else none
      | [] => none
    else none) = some src
  rw [show isQuoteChar '"' = true from rfl, if_pos rfl]
  simp only [hspan]
  simp [hne]

theorem matchCI_fourth (p1 p2 p3 p4 : Char) (l : List Char)
    (h : matchCI [p1, p2, p3, p4] l = true) :
    ∃ x1 x2 x3 x4 rest, l = x1 :: x2 :: x3 :: x4 :: rest ∧ p4 = x4.toLower := by
  match l with
  | [] => simp [matchCI] at h
  | [x1] => simp [matchCI, Bool.and_eq_true] at h
  | [x1, x2] => simp [matchCI, Bool.and_eq_true] at h
  | [x1, x2, x3] => simp [matchCI, Bool.and_eq_true] at h
  | x1 :: x2 :: x3 :: x4 :: rest =>
    simp only [matchCI, Bool.and_eq_true, decide_eq_true_eq] at h
    exact ⟨x1, x2, x3, x4, rest, rfl, h.2.2.2.1⟩

/-- No position of a quote-free character list followed by the closing quote
and bracket can host an alt-attribute match. -/
theorem searchAttrF_alt_none_nil2 (f : Nat) :
    searchAttrF "alt=".data false f ['"', '>'] = none := by
  induction f with
  | zero => rfl
  | succ g ih =>
    cases g with
    | zero => rfl
    | succ g2 =>
      cases g2 with
      | zero => rfl
      | succ g3 =>
        show searchAttrF "alt=".data false (g3 + 1 + 1 + 1) ['"', '>'] = none
        rfl

theorem searchAttrF_alt_none (l : List Char)
    (hl : ∀ c ∈ l, c ≠ '=') :
    ∀ f, searchAttrF "alt=".data false f (l ++ ['"', '>']) = none := by
  induction l with
  | nil => exact searchAttrF_alt_none_nil2
  | cons c t ih =>
    intro f
    cases f with
    | zero => rfl
    | succ g =>
      have htry : tryAttrAt "alt=".data false (c :: (t ++ ['"', '>'])) = none := by
        unfold tryAttrAt
        cases hm : matchCI "alt=".data (c :: (t ++ ['"', '>'])) with
        | false => rw [if_neg (by simp [hm])]
        | true =>
          exfalso
          obtain ⟨x1, x2, x3, x4, rest, heq, hx4⟩ :=
            matchCI_fourth 'a' 'l' 't' '=' _ hm
          have hx4eq : x4 = '=' :=
            toLower_eq_of_nonletter x4 '=' (Or.inl (by decide)) hx4.symm
          have hx4mem : x4 ∈ c :: (t ++ ['"', '>']) := by
            rw [heq]
            simp
          rw [hx4eq] at hx4mem
          simp at hx4mem
          rcases hx4mem with h1 | h2
          · exact hl c (List.mem_cons_self c _) h1.symm
          · exact hl '=' (List.mem_cons_of_mem c h2) rfl
      show searchAttrF "alt=".data false (g + 1) (c :: (t ++ ['"', '>'])) = none
      simp only [searchAttrF, htry]
      exact ih (fun d hd => hl d (List.mem_cons_of_mem c hd)) g

theorem searchAttrF_src_found (src tail : List Char) (hne : src ≠ [])
    (hq : ∀ c ∈ src, c ≠ '"' ∧ c ≠ '\'') (f : Nat) :
    searchAttrF "src=".data true (f + 1)
      ('s' :: 'r' :: 'c' :: '=' :: '"' :: (src ++ '"' :: tail)) = some src := by
  have h := tryAttrAt_src src tail hne hq
  simp only [searchAttrF, h]

theorem parseImgTag_tag (src : List Char) (hne : src ≠ [])
    (hsafe : ∀ c ∈ src, c ≠ '<' ∧ c ≠ '>' ∧ c ≠ '"' ∧ c ≠ '\'' ∧ c ≠ '=') :
    parseImgTag ('<' :: 'i' :: 'm' :: 'g' :: ' ' :: 's' :: 'r' :: 'c' :: '=' :: '"' ::
        (src ++ ['"', '>'])) =
      some (imgPlaceholder ⟨src⟩ "") := by
  have hq : ∀ c ∈ src, c ≠ '"' ∧ c ≠ '\'' := fun c hc => ⟨(hsafe c hc).2.2.1, (hsafe c hc).2.2.2.1⟩
  have hP5 : ∀ c ∈ (['<', 'i', 'm', 'g', ' '] : List Char), ('s' : Char) ≠ c.toLower := by
    intro c hc
    fin_cases hc <;> decide
  have hP10 : ∀ c ∈ (['<', 'i', 'm', 'g', ' ', 's', 'r', 'c', '=', '"'] : List Char),
      ('a' : Char) ≠ c.toLower := by
    intro c hc
    fin_cases hc <;> decide
  have hlen : ('<' :: 'i' :: 'm' :: 'g' :: ' ' :: 's' :: 'r' :: 'c' :: '=' :: '"' ::
      (src ++ ['"', '>'])).length = src.length + 12 := by
    simp
  have hsrcsearch : searchAttrF "src=".data true (src.length + 12 + 1)
      ('<' :: 'i' :: 'm' :: 'g' :: ' ' :: 's' :: 'r' :: 'c' :: '=' :: '"' ::
        (src ++ ['"', '>'])) = some src := by
    rw [show ('<' :: 'i' :: 'm' :: 'g' :: ' ' :: 's' :: 'r' :: 'c' :: '=' :: '"' ::
        (src ++ ['"', '>'])) =
      (['<', 'i', 'm', 'g', ' '] : List Char) ++
        ('s' :: 'r' :: 'c' :: '=' :: '"' :: (src ++ '"' :: ['>'])) from by simp]
    rw [show src.length + 12 + 1 =
      (['<', 'i', 'm', 'g', ' '] : List Char).length + (src.length + 8) from by simp; omega]
    rw [show ("src=".data : List Char) = 's' :: ['r', 'c', '='] from rfl]
    rw [searchAttrF_skip_front 's' ['r', 'c', '='] true ['<', 'i', 'm', 'g', ' ']
      ('s' :: 'r' :: 'c' :: '=' :: '"' :: (src ++ '"' :: ['>'])) hP5 (src.length + 8)]
    rw [show src.length + 8 = (src.length + 7) + 1 from rfl]
    exact searchAttrF_src_found src ['>'] hne hq (src.length + 7)
  have haltsearch : searchAttrF "alt=".data false (src.length + 12 + 1)
      ('<' :: 'i' :: 'm' :: 'g' :: ' ' :: 's' :: 'r' :: 'c' :: '=' :: '"' ::
        (src ++ ['"', '>'])) = none := by
    rw [show ('<' :: 'i' :: 'm' :: 'g' :: ' ' :: 's' :: 'r' :: 'c' :: '=' :: '"' ::
        (src ++ ['"', '>'])) =
      (['<', 'i', 'm', 'g', ' ', 's', 'r', 'c', '=', '"'] : List Char) ++
        (src ++ ['"', '>']) from by simp]
    rw [show src.length + 12 + 1 =
      (['<', 'i', 'm', 'g', ' ', 's', 'r', 'c', '=', '"'] : List Char).length +
        (src.length + 3) from by simp; omega]
    rw [show ("alt=".data : List Char) = 'a' :: ['l', 't', '='] from rfl]
    rw [searchAttrF_skip_front 'a' ['l', 't', '='] false
      ['<', 'i', 'm', 'g', ' ', 's', 'r', 'c', '=', '"'] (src ++ ['"', '>']) hP10
      (src.length + 3)]
    exact searchAttrF_alt_none src (fun c hc => (hsafe c hc).2.2.2.2) (src.length + 3)
  unfold parseImgTag
  rw [hlen, hsrcsearch, haltsearch]
  rfl

theorem extractImages_comment_mem (pre src post : String)
    (hpre : ∀ c ∈ pre.data, c ≠ '<') (hne : src.data ≠ [])
    (hsafe : ∀ c ∈ src.data, c ≠ '<' ∧ c ≠ '>' ∧ c ≠ '"' ∧ c ≠ '\'' ∧ c ≠ '=') :
    imgPlaceholder src "" ∈
      extractImages ("<!--" ++ pre ++ "<img src=\"" ++ src ++ "\">" ++ post) := by
  have hdata : ("<!--" ++ pre ++ "<img src=\"" ++ src ++ "\">" ++ post).data =
      '<' :: '!' :: '-' :: '-' :: (pre.data ++
        ('<' :: 'i' :: 'm' :: 'g' :: ((' ' :: 's' :: 'r' :: 'c' :: '=' :: '"' ::
          (src.data ++ ['"'])) ++ '>' :: post.data))) := by
    simp [String.data_append]
  have hB : ∀ c ∈ (' ' :: 's' :: 'r' :: 'c' :: '=' :: '"' :: (src.data ++ ['"'])), c ≠ '>' := by
    intro c hc
    simp at hc
    rcases hc with rfl | rfl | rfl | rfl | rfl | rfl | hmem | rfl
    · decide
    · decide
    · decide
    · decide
    · decide
    · decide
    · exact (hsafe c hmem).2.1
    · decide
  have hmain : ∀ f, imgScanF (f + 1)
      ('<' :: 'i' :: 'm' :: 'g' :: ((' ' :: 's' :: 'r' :: 'c' :: '=' :: '"' ::
        (src.data ++ ['"'])) ++ '>' :: post.data)) =
      (('<' :: 'i' :: 'm' :: 'g' :: (' ' :: 's' :: 'r' :: 'c' :: '=' :: '"' ::
        (src.data ++ ['"']))) ++ ['>']) :: imgScanF f post.data := by
    intro f
    simp only [imgScanF, tryImg_at_tag _ post.data hB]
  unfold extractImages
  rw [hdata]
  have hW : ('<' :: '!' :: '-' :: '-' :: (pre.data ++
      ('<' :: 'i' :: 'm' :: 'g' :: ((' ' :: 's' :: 'r' :: 'c' :: '=' :: '"' ::
        (src.data ++ ['"'])) ++ '>' :: post.data)))).length =
      4 + (pre.data.length + (src.data.length + (post.data.length + 12))) := by
    simp
    omega
  rw [hW]
  have hfuel := imgScanF_fuel
    (4 + (pre.data.length + (src.data.length + (post.data.length + 12))))
    ('<' :: '!' :: '-' :: '-' :: (pre.data ++
      ('<' :: 'i' :: 'm' :: 'g' :: ((' ' :: 's' :: 'r' :: 'c' :: '=' :: '"' ::
        (src.data ++ ['"'])) ++ '>' :: post.data))))
    (by simp; omega)
    (4 + (pre.data.length + (src.data.length + (post.data.length + 12))))
    ((pre.data.length + (src.data.length + (post.data.length + 13))) + 1 + 1 + 1 + 1)
    (by simp; omega) (by simp; omega)
  rw [hfuel]
  rw [show (pre.data.length + (src.data.length + (post.data.length + 13))) + 1 + 1 + 1 + 1 =
    ((((pre.data.length + (src.data.length + (post.data.length + 13))) + 1) + 1) + 1) + 1
    from rfl]
  have t1 : tryImg ('<' :: '!' :: '-' :: '-' :: (pre.data ++
      ('<' :: 'i' :: 'm' :: 'g' :: ((' ' :: 's' :: 'r' :: 'c' :: '=' :: '"' ::
        (src.data ++ ['"'])) ++ '>' :: post.data)))) = none := rfl
  have t2 : tryImg ('!' :: '-' :: '-' :: (pre.data ++
      ('<' :: 'i' :: 'm' :: 'g' :: ((' ' :: 's' :: 'r' :: 'c' :: '=' :: '"' ::
        (src.data ++ ['"'])) ++ '>' :: post.data)))) = none := rfl
  have t3 : tryImg ('-' :: '-' :: (pre.data ++
      ('<' :: 'i' :: 'm' :: 'g' :: ((' ' :: 's' :: 'r' :: 'c' :: '=' :: '"' ::
        (src.data ++ ['"'])) ++ '>' :: post.data)))) = none := rfl
  have t4 : tryImg ('-' :: (pre.data ++
      ('<' :: 'i' :: 'm' :: 'g' :: ((' ' :: 's' :: 'r' :: 'c' :: '=' :: '"' ::
        (src.data ++ ['"'])) ++ '>' :: post.data)))) = none := rfl
  rw [imgScanF_step_none _ _ _ t1, imgScanF_step_none _ _ _ t2,
    imgScanF_step_none _ _ _ t3, imgScanF_step_none _ _ _ t4]
  rw [imgScanF_skip_front pre.data
    ('<' :: 'i' :: 'm' :: 'g' :: ((' ' :: 's' :: 'r' :: 'c' :: '=' :: '"' ::
      (src.data ++ ['"'])) ++ '>' :: post.data)) hpre
    (src.data.length + (post.data.length + 13))]
  rw [show src.data.length + (post.data.length + 13) =
    (src.data.length + (post.data.length + 12)) + 1 from rfl]
  rw [hmain (src.data.length + (post.data.length + 12))]
  rw [show (('<' :: 'i' :: 'm' :: 'g' :: (' ' :: 's' :: 'r' :: 'c' :: '=' :: '"' ::
      (src.data ++ ['"']))) ++ ['>']) =
    ('<' :: 'i' :: 'm' :: 'g' :: ' ' :: 's' :: 'r' :: 'c' :: '=' :: '"' ::
      (src.data ++ ['"', '>'])) from by simp]
  rw [List.filterMap_cons, parseImgTag_tag src.data hne hsafe]
  exact List.mem_cons_self _ _

/-- Any extracted image placeholder appears in the final normalized lines. -/
theorem mem_stripLines_of_mem_extractImages (html : String) (s : String)
    (hs : s ∈ extractImages html) : s ∈ stripLines html := by
  unfold stripLines
  rw [if_pos (List.ne_nil_of_mem hs)]
  exact List.mem_append_right _ (List.mem_cons_of_mem _ (List.mem_cons_of_mem _ hs))

/-! ### Blank-only diff lemmas -/

theorem renderRemoved_all_blank (removed : List String) (m : Nat)
    (hne : removed ≠ []) (hR : ∀ l ∈ removed, l = "") (hlen : removed.length ≤ m) :
    renderRemoved removed m = ["【削除された内容】"] := by
  have hfilter : (removed.take m).filter (fun l => l ≠ "") = [] := by
    rw [List.filter_eq_nil_iff]
    intro a ha
    simp [hR a (List.mem_of_mem_take ha)]
  simp [renderRemoved, hne, hfilter, Nat.not_lt.mpr hlen]
  exact fun a ha => hR a (List.mem_of_mem_take ha)

theorem renderAdded_nil (removed : List String) (m : Nat) :
    renderAdded removed [] m = [] := by
  simp [renderAdded]

theorem diffLines_long_of_removed_ne (old new : String)
    (hne : diffRemoved old new ≠ []) :
    ¬(diffLines old new = [] ∨ (diffLines old new).length ≤ 2) := by
  have hdrop : (diffLines old new).drop 2 ≠ [] := by
    intro hcontra
    apply hne
    unfold diffRemoved
    rw [hcontra]
    rfl
  intro h
  rcases h with h | h
  · exact hdrop (by rw [h]; rfl)
  · exact hdrop (List.drop_eq_nil_iff.mpr h)

theorem blank_only_header (old new : String) (m : Nat)
    (hsplit : pySplitlines old ≠ pySplitlines new)
    (hR : ∀ l ∈ diffRemoved old new, l = "")
    (hne : diffRemoved old new ≠ []) (hA : diffAdded old new = [])
    (hlen : (diffRemoved old new).length ≤ m) :
    get_diff_summary old new m = "【削除された内容】" := by
  have h2 := diffLines_long_of_removed_ne old new hne
  have h3 : ¬(diffAdded old new = [] ∧ diffRemoved old new = []) := fun h => hne h.2
  simp only [get_diff_summary]
  rw [if_neg hsplit, if_neg h2, if_neg h3,
    renderRemoved_all_blank (diffRemoved old new) m hne hR hlen, hA, renderAdded_nil]
  rfl

/-! ### Parametric CSRF-token stripping: strip_html_tags (csrfPage t) = "Hello"
for every angle-bracket-free token t -/

def csrfPage (t : String) : String :=
  "<form><input type=\"hidden\" name=\"csrf\" value=\"" ++ t ++ "\"><p>Hello</p></form>"

theorem tagsToNLF_nil (f : Nat) : tagsToNLF f [] = [] := by cases f <;> rfl

theorem tagsToNLF_step (f : Nat) (c : Char) (l : List Char) (h : c ≠ '<') :
    tagsToNLF (f + 1) (c :: l) = c :: tagsToNLF f l := by
  rw [tagsToNLF]
  exact fun hc => h hc

theorem tagsToNLF_tag (f : Nat) (body rest : List Char) (hb : body ≠ [])
    (hgt : ∀ c ∈ body, c ≠ '>') :
    tagsToNLF (f + 1) ('<' :: (body ++ '>' :: rest)) = '\n' :: tagsToNLF f rest := by
  have hBp : ∀ c ∈ body, (fun c => decide (c ≠ '>')) c = true := by
    intro c hc
    simp [hgt c hc]
  rw [tagsToNLF]
  simp only [List.span_eq_take_drop, takeWhile_all_append _ body ('>' :: rest) hBp,
    dropWhile_all_append _ body ('>' :: rest) hBp]
  rw [show (('>' : Char) :: rest).takeWhile (fun c => decide (c ≠ '>')) = [] from rfl,
    show (('>' : Char) :: rest).dropWhile (fun c => decide (c ≠ '>')) = '>' :: rest from rfl]
  simp [hb]

theorem tagsToNLF_pass : ∀ (l1 : List Char), (∀ c ∈ l1, c ≠ '<') → ∀ (rest : List Char) (f : Nat),
    tagsToNLF (l1.length + f) (l1 ++ rest) = l1 ++ tagsToNLF f rest := by
  intro l1
  induction l1 with
  | nil => intro _ rest f; simp
  | cons c t ih =>
    intro h rest f
    rw [show (c :: t).length + f = (t.length + f) + 1 from by simp; omega]
    rw [List.cons_append, tagsToNLF_step _ _ _ (h c (List.mem_cons_self c _))]
    rw [ih (fun d hd => h d (List.mem_cons_of_mem c hd)) rest f]
    rfl



theorem suffix_split : ∀ (X Y s : List Char), s <:+ X ++ Y →
    s <:+ Y ∨ ∃ s1, s1 <:+ X ∧ s1 ≠ [] ∧ s = s1 ++ Y := by
  intro X
  induction X with
  | nil => intro Y s h; exact Or.inl (by simpa using h)
  | cons x xt ih =>
    intro Y s h
    rw [List.cons_append] at h
    rcases List.suffix_cons_iff.mp h with h1 | h2
    · exact Or.inr ⟨x :: xt, List.suffix_refl _, by simp, by simpa using h1⟩
    · rcases ih Y s h2 with h3 | ⟨s1, hs1, hne, heq⟩
      · exact Or.inl h3
      · exact Or.inr ⟨s1, hs1.trans (List.suffix_cons x xt), hne, heq⟩

theorem removeBlocksF_id (o c : List Char) :
    ∀ (l : List Char), (∀ s, s <:+ l → tryBlock o c s = none) →
    ∀ f, removeBlocksF o c f l = l := by
  intro l
  induction l with
  | nil =>
    intro h f
    cases f with
    | zero => rfl
    | succ g => simp only [removeBlocksF, h [] (List.suffix_refl _)]
  | cons ch tl ih =>
    intro h f
    cases f with
    | zero => rfl
    | succ g =>
      have h0 : tryBlock o c (ch :: tl) = none := h _ (List.suffix_refl _)
      simp only [removeBlocksF, h0]
      rw [ih (fun s hs => h s (hs.trans (List.suffix_cons ch tl))) g]

theorem removeCommentsF_id :
    ∀ (l : List Char), (∀ s, s <:+ l → "<!--".data.isPrefixOf s = false) →
    ∀ f, removeCommentsF f l = l := by
  intro l
  induction l with
  | nil => intro _ f; cases f <;> rfl
  | cons ch tl ih =>
    intro h f
    cases f with
    | zero => rfl
    | succ g =>
      have h0 : "<!--".data.isPrefixOf (ch :: tl) = false := h _ (List.suffix_refl _)
      simp only [removeCommentsF, h0, Bool.false_eq_true, if_false]
      rw [ih (fun s hs => h s (hs.trans (List.suffix_cons ch tl))) g]

theorem imgScanF_empty :
    ∀ (l : List Char), (∀ s, s <:+ l → tryImg s = none) →
    ∀ f, imgScanF f l = [] := by
  intro l
  induction l with
  | nil => intro _ f; exact imgScanF_nil f
  | cons ch tl ih =>
    intro h f
    cases f with
    | zero => rfl
    | succ g =>
      have h0 : tryImg (ch :: tl) = none := h _ (List.suffix_refl _)
      simp only [imgScanF, h0]
      exact ih (fun s hs => h s (hs.trans (List.suffix_cons ch tl))) g

theorem tryBlock_none_of_head (orest closePat : List Char) (ch : Char) (l : List Char)
    (h : ch ≠ '<') : tryBlock ('<' :: orest) closePat (ch :: l) = none := by
  have hm : matchCI ('<' :: orest) (ch :: l) = false := by
    show (decide (('<' : Char) = ch.toLower) && matchCI orest l) = false
    have hne : ¬ ('<' : Char) = ch.toLower := by
      intro hx
      exact h (toLower_eq_of_nonletter ch '<' (Or.inl (by decide)) hx.symm)
    rw [decide_eq_false hne, Bool.false_and]
  simp [tryBlock, hm]

theorem commentOpen_false_of_head (ch : Char) (l : List Char) (h : ch ≠ '<') :
    "<!--".data.isPrefixOf (ch :: l) = false := by
  show (('<' == ch) && List.isPrefixOf "!--".data l) = false
  have : ('<' == ch) = false := by
    rw [beq_eq_false_iff_ne]
    exact fun hx => h hx.symm
  rw [this, Bool.false_and]



theorem csrfPage_suffix_cases (t : String) (ht : ∀ c ∈ t.data, c ≠ '<' ∧ c ≠ '>')
    (s : List Char) (hs : s <:+ (csrfPage t).data) :
    s ∈ ("\"><p>Hello</p></form>".data).tails ∨
    (∃ c tl, s = c :: tl ∧ c ≠ '<') ∨
    s = "<form><input type=\"hidden\" name=\"csrf\" value=\"".data ++
      (t.data ++ "\"><p>Hello</p></form>".data) ∨
    s = "<input type=\"hidden\" name=\"csrf\" value=\"".data ++
      (t.data ++ "\"><p>Hello</p></form>".data) := by
  have hC1cases : ∀ s1 ∈ ("<form><input type=\"hidden\" name=\"csrf\" value=\"".data).tails,
      s1 = [] ∨ s1 = "<form><input type=\"hidden\" name=\"csrf\" value=\"".data ∨
      s1 = "<input type=\"hidden\" name=\"csrf\" value=\"".data ∨ s1.head? ≠ some '<' := by
    decide
  have hdata : (csrfPage t).data =
      "<form><input type=\"hidden\" name=\"csrf\" value=\"".data ++
        (t.data ++ "\"><p>Hello</p></form>".data) := by
    simp [csrfPage]
  rw [hdata] at hs
  rcases suffix_split _ _ _ hs with h1 | ⟨s1, hs1, hne, rfl⟩
  · rcases suffix_split _ _ _ h1 with h2 | ⟨s2, hs2, hne2, rfl⟩
    · exact Or.inl ((List.mem_tails _ _).mpr h2)
    · cases s2 with
      | nil => exact absurd rfl hne2
      | cons c tl =>
        exact Or.inr (Or.inl ⟨c, tl ++ "\"><p>Hello</p></form>".data, by simp,
          (ht c (hs2.subset (List.mem_cons_self c _))).1⟩)
  · rcases hC1cases s1 ((List.mem_tails _ _).mpr hs1) with h | h | h | h
    · exact absurd h hne
    · subst h
      exact Or.inr (Or.inr (Or.inl rfl))
    · subst h
      exact Or.inr (Or.inr (Or.inr rfl))
    · cases s1 with
      | nil => exact absurd rfl hne
      | cons c tl =>
        refine Or.inr (Or.inl ⟨c, tl ++ (t.data ++ "\"><p>Hello</p></form>".data), by simp, ?_⟩)
        intro hc
        exact h (by rw [hc]; rfl)



theorem removeScripts_csrf (t : String) (ht : ∀ c ∈ t.data, c ≠ '<' ∧ c ≠ '>') :
    removeScripts (csrfPage t) = csrfPage t := by
  have hcond : ∀ s, s <:+ (csrfPage t).data →
      tryBlock "<script".data "</script>".data s = none := by
    intro s hs
    rcases csrfPage_suffix_cases t ht s hs with h | ⟨c, tl, rfl, hc⟩ | h | h
    · have hC2 : ∀ s2 ∈ ("\"><p>Hello</p></form>".data).tails,
          tryBlock "<script".data "</script>".data s2 = none := by decide
      exact hC2 s h
    · exact tryBlock_none_of_head _ _ c tl hc
    · rw [h]; rfl
    · rw [h]; rfl
  unfold removeScripts
  rw [removeBlocksF_id _ _ _ hcond _]

theorem removeStyles_csrf (t : String) (ht : ∀ c ∈ t.data, c ≠ '<' ∧ c ≠ '>') :
    removeStyles (csrfPage t) = csrfPage t := by
  have hcond : ∀ s, s <:+ (csrfPage t).data →
      tryBlock "<style".data "</style>".data s = none := by
    intro s hs
    rcases csrfPage_suffix_cases t ht s hs with h | ⟨c, tl, rfl, hc⟩ | h | h
    · have hC2 : ∀ s2 ∈ ("\"><p>Hello</p></form>".data).tails,
          tryBlock "<style".data "</style>".data s2 = none := by decide
      exact hC2 s h
    · exact tryBlock_none_of_head _ _ c tl hc
    · rw [h]; rfl
    · rw [h]; rfl
  unfold removeStyles
  rw [removeBlocksF_id _ _ _ hcond _]

theorem removeComments_csrf (t : String) (ht : ∀ c ∈ t.data, c ≠ '<' ∧ c ≠ '>') :
    removeComments (csrfPage t) = csrfPage t := by
  have hcond : ∀ s, s <:+ (csrfPage t).data → "<!--".data.isPrefixOf s = false := by
    intro s hs
    rcases csrfPage_suffix_cases t ht s hs with h | ⟨c, tl, rfl, hc⟩ | h | h
    · have hC2 : ∀ s2 ∈ ("\"><p>Hello</p></form>".data).tails,
          "<!--".data.isPrefixOf s2 = false := by decide
      exact hC2 s h
    · exact commentOpen_false_of_head c tl hc
    · rw [h]; rfl
    · rw [h]; rfl
  unfold removeComments
  rw [removeCommentsF_id _ hcond _]

theorem extractImages_csrf (t : String) (ht : ∀ c ∈ t.data, c ≠ '<' ∧ c ≠ '>') :
    extractImages (csrfPage t) = [] := by
  have hcond : ∀ s, s <:+ (csrfPage t).data → tryImg s = none := by
    intro s hs
    rcases csrfPage_suffix_cases t ht s hs with h | ⟨c, tl, rfl, hc⟩ | h | h
    · have hC2 : ∀ s2 ∈ ("\"><p>Hello</p></form>".data).tails, tryImg s2 = none := by decide
      exact hC2 s h
    · exact tryImg_none_of_head c tl hc
    · rw [h]; rfl
    · rw [h]; rfl
  unfold extractImages
  rw [imgScanF_empty _ hcond _]
  rfl



theorem tagsToNewlines_csrf (t : String) (ht : ∀ c ∈ t.data, c ≠ '<' ∧ c ≠ '>') :
    tagsToNewlines (csrfPage t) = "\n\n\nHello\n\n" := by
  have hgt_i : ∀ c ∈ ("input type=\"hidden\" name=\"csrf\" value=\"".data ++
      (t.data ++ ['"'])), c ≠ '>' := by
    intro c hc
    rcases List.mem_append.mp hc with h1 | h2
    · have hlit : ∀ c ∈ "input type=\"hidden\" name=\"csrf\" value=\"".data, c ≠ '>' := by
        decide
      exact hlit c h1
    · rcases List.mem_append.mp h2 with h3 | h4
      · exact (ht c h3).2
      · simp at h4
        rw [h4]
        decide
  have hne_i : ("input type=\"hidden\" name=\"csrf\" value=\"".data ++
      (t.data ++ ['"'])) ≠ [] := by
    simp
  have hshape : (csrfPage t).data =
      '<' :: (['f', 'o', 'r', 'm'] ++ '>' ::
        ('<' :: (("input type=\"hidden\" name=\"csrf\" value=\"".data ++ (t.data ++ ['"'])) ++ '>' ::
          ('<' :: (['p'] ++ '>' ::
            (['H', 'e', 'l', 'l', 'o'] ++
              ('<' :: (['/', 'p'] ++ '>' ::
                ('<' :: (['/', 'f', 'o', 'r', 'm'] ++ '>' :: [])))))))))) := by
    have hdata : (csrfPage t).data =
        "<form><input type=\"hidden\" name=\"csrf\" value=\"".data ++
          (t.data ++ "\"><p>Hello</p></form>".data) := by
      simp [csrfPage]
    rw [hdata,
      show ("<form><input type=\"hidden\" name=\"csrf\" value=\"".data : List Char) =
        '<' :: (['f', 'o', 'r', 'm'] ++ '>' ::
          ('<' :: "input type=\"hidden\" name=\"csrf\" value=\"".data)) from rfl,
      show ("\"><p>Hello</p></form>".data : List Char) =
        '"' :: ('>' :: ('<' :: (['p'] ++ '>' :: (['H', 'e', 'l', 'l', 'o'] ++
          ('<' :: (['/', 'p'] ++ '>' :: ('<' :: (['/', 'f', 'o', 'r', 'm'] ++
            '>' :: [])))))))) from rfl]
    simp
  have hlen : (csrfPage t).data.length = t.data.length + 67 := by
    simp [csrfPage]
  unfold tagsToNewlines
  rw [hlen, hshape]
  rw [show t.data.length + 67 = (t.data.length + 66) + 1 from rfl]
  rw [tagsToNLF_tag _ _ _ (by simp) (by decide)]
  rw [show t.data.length + 66 = (t.data.length + 65) + 1 from rfl]
  rw [tagsToNLF_tag _ _ _ hne_i hgt_i]
  rw [show t.data.length + 65 = (t.data.length + 64) + 1 from rfl]
  rw [tagsToNLF_tag _ _ _ (by simp) (by decide)]
  rw [show t.data.length + 64 = (['H', 'e', 'l', 'l', 'o'] : List Char).length +
    (t.data.length + 59) from by simp; omega]
  rw [tagsToNLF_pass ['H', 'e', 'l', 'l', 'o'] (by decide) _ _]
  rw [show t.data.length + 59 = (t.data.length + 58) + 1 from rfl]
  rw [tagsToNLF_tag _ _ _ (by simp) (by decide)]
  rw [show t.data.length + 58 = (t.data.length + 57) + 1 from rfl]
  rw [tagsToNLF_tag _ _ _ (by simp) (by decide)]
  rw [tagsToNLF_nil]
  rfl

theorem strip_csrfPage (t : String) (ht : ∀ c ∈ t.data, c ≠ '<' ∧ c ≠ '>') :
    strip_html_tags (csrfPage t) = "Hello" := by
  unfold strip_html_tags stripLines textLines
  rw [extractImages_csrf t ht, removeScripts_csrf t ht, removeStyles_csrf t ht,
    removeComments_csrf t ht, tagsToNewlines_csrf t ht]
  decide

/-! ### Claim theorems -/

/-- C4: for every URL with no prior fingerprint entry, a successful fetch is
classified NEW: the fingerprint is recorded and the content cached, but no
ChangeReport is emitted (and in particular the outcome is not CHANGED and no
diff is computed). -/
theorem claim4_new_url (fetch : String → Option String) (st : MonState) (url html : String)
    (hf : fetch url = some html) (hh : dictGet st.hashes url = none) :
    processUrl fetch st url =
      (MonState.mk (dictSet st.hashes url (get_text_content_hash html))
        (save_content st.cache url html), none, Outcome.new) := by
  simp [processUrl, hf, hh]

theorem claim4_new_url_witness :
    (fun u => if u = "http://a" then some "<p>Hi</p>" else none) "http://a" =
        some "<p>Hi</p>" ∧
    dictGet (MonState.mk [] []).hashes "http://a" = none ∧
    processUrl (fun u => if u = "http://a" then some "<p>Hi</p>" else none)
        (MonState.mk [] []) "http://a" =
      (MonState.mk (dictSet [] "http://a" (get_text_content_hash "<p>Hi</p>"))
        (save_content [] "http://a" "<p>Hi</p>"), none, Outcome.new) :=
  ⟨by decide, by decide,
    claim4_new_url (fun u => if u = "http://a" then some "<p>Hi</p>" else none)
      (MonState.mk [] []) "http://a" "<p>Hi</p>" (by decide) (by decide)⟩

/-- C5: a URL whose fetch fails leaves the state for that URL (and every
other) untouched, emits no report, and the remaining URLs are processed as if
the failed URL were absent. -/
theorem claim5_fetch_failure (fetch : String → Option String) (st : MonState)
    (url : String) (rest : List String) (hf : fetch url = none) :
    processUrl fetch st url = (st, none, Outcome.fetchFailed) ∧
    runMonitor fetch (url :: rest) st = runMonitor fetch rest st := by
  constructor
  · simp [processUrl, hf]
  · simp [runMonitor, processUrl, hf]

theorem claim5_fetch_failure_witness :
    (fun _ => (none : Option String)) "http://down" = none ∧
    processUrl (fun _ => none) (MonState.mk [("http://down", "aa")] []) "http://down" =
      (MonState.mk [("http://down", "aa")] [], none, Outcome.fetchFailed) ∧
    runMonitor (fun _ => none) ["http://down", "http://other"]
        (MonState.mk [("http://down", "aa")] []) =
      runMonitor (fun _ => none) ["http://other"] (MonState.mk [("http://down", "aa")] []) :=
  ⟨by decide,
    (claim5_fetch_failure (fun _ => none) (MonState.mk [("http://down", "aa")] [])
      "http://down" ["http://other"] (by decide)).1,
    (claim5_fetch_failure (fun _ => none) (MonState.mk [("http://down", "aa")] [])
      "http://down" ["http://other"] (by decide)).2⟩

/-- C6: a URL whose fingerprint differs from the stored one but whose cached
content is missing still yields a ChangeReport, with the sentinel "prior
content unavailable" body, and fingerprint and cache are still updated; the
result is an ordinary value, so the run continues normally. -/
theorem claim6_missing_cache (fetch : String → Option String) (st : MonState)
    (url html prev : String) (hf : fetch url = some html)
    (hh : dictGet st.hashes url = some prev) (hne : get_text_content_hash html ≠ prev)
    (hc : load_content st.cache url = none) :
    processUrl fetch st url =
      (MonState.mk (dictSet st.hashes url (get_text_content_hash html))
          (save_content st.cache url html),
        some (ChangeReport.mk url priorContentMissing), Outcome.changed) := by
  simp [processUrl, hf, hh, hne, hc]

theorem claim6_missing_cache_witness :
    (fun u => if u = "http://a" then some "<p>Hi</p>" else none) "http://a" =
        some "<p>Hi</p>" ∧
    dictGet (MonState.mk [("http://a", "0123")] []).hashes "http://a" = some "0123" ∧
    get_text_content_hash "<p>Hi</p>" ≠ "0123" ∧
    load_content (MonState.mk [("http://a", "0123")] []).cache "http://a" = none ∧
    processUrl (fun u => if u = "http://a" then some "<p>Hi</p>" else none)
        (MonState.mk [("http://a", "0123")] []) "http://a" =
      (MonState.mk (dictSet [("http://a", "0123")] "http://a" (get_text_content_hash "<p>Hi</p>"))
          (save_content [] "http://a" "<p>Hi</p>"),
        some (ChangeReport.mk "http://a" priorContentMissing), Outcome.changed) :=
  ⟨by decide, by decide, by decide, by decide,
    claim6_missing_cache (fun u => if u = "http://a" then some "<p>Hi</p>" else none)
      (MonState.mk [("http://a", "0123")] []) "http://a" "<p>Hi</p>" "0123"
      (by decide) (by decide) (by decide) (by decide)⟩

/-- C7 counterexample: the claim says a malformed store file is treated as an
empty mapping; in the source `json.load` is called without any exception
handling, so a malformed file aborts the run instead of yielding the empty
mapping. -/
theorem claim7_malformed_counterexample :
    load_hashes (some "not json") ≠ some ([] : List (String × String)) ∧
    load_hashes (some "not json") = none := by
  constructor
  · decide
  · decide

/-- C7 amended: a missing store file yields the empty mapping; a store file
that fails to parse propagates the JSON failure (aborting the run) rather
than being treated as empty. -/
theorem claim7_amended :
    load_hashes none = some ([] : List (String × String)) ∧
    (∀ s : String, json_load s = none → load_hashes (some s) = none) := by
  constructor
  · rfl
  · intro s h
    simpa [load_hashes] using h

theorem claim7_amended_witness :
    json_load "not json" = none ∧ load_hashes (some "not json") = none :=
  ⟨by decide, claim7_amended.2 "not json" (by decide)⟩

/-- C8: on the spec's worked example (limit 10) the summary has exactly the
one removed entry and the one added entry, rendered as the removed section
followed by the added section. -/
theorem claim8_price_example :
    extractChanges ((unified_diff (pySplitlines "Price: $10\nIn stock")
        (pySplitlines "Price: $12\nIn stock") 0).drop 2) =
      (["Price: $12"], ["Price: $10"]) ∧
    get_diff_summary "Price: $10\nIn stock" "Price: $12\nIn stock" 10 =
      "【削除された内容】\n  - Price: $10\n\n【追加された内容】\n  + Price: $12" := by
  constructor
  · decide
  · decide

/-- C3: for every pair of texts and every limit, the rendered summary is the
sentinel or the concatenation of the two sections; each section carries at
most `limit` bullet lines; and exactly when a sequence exceeds `limit`, the
section ends with exactly one omitted-count line stating the number of
entries beyond the cap. -/
theorem claim3_truncation (old new : String) (limit : Nat) :
    (get_diff_summary old new limit = noChange ∨
      get_diff_summary old new limit =
        joinNL (renderRemoved (diffRemoved old new) limit ++
          renderAdded (diffRemoved old new) (diffAdded old new) limit)) ∧
    (renderRemoved (diffRemoved old new) limit).countP
        (fun l => pyStartsWith l "  - ") ≤ limit ∧
    (renderAdded (diffRemoved old new) (diffAdded old new) limit).countP
        (fun l => pyStartsWith l "  + ") ≤ limit ∧
    ((diffRemoved old new).length > limit →
      (renderRemoved (diffRemoved old new) limit).countP
          (fun l => pyStartsWith l "  ... 他 ") = 1 ∧
      (renderRemoved (diffRemoved old new) limit).getLast? =
        some ("  ... 他 " ++ toString ((diffRemoved old new).length - limit) ++ " 行")) ∧
    ((diffRemoved old new).length ≤ limit →
      (renderRemoved (diffRemoved old new) limit).countP
          (fun l => pyStartsWith l "  ... 他 ") = 0) ∧
    ((diffAdded old new).length > limit →
      (renderAdded (diffRemoved old new) (diffAdded old new) limit).countP
          (fun l => pyStartsWith l "  ... 他 ") = 1 ∧
      (renderAdded (diffRemoved old new) (diffAdded old new) limit).getLast? =
        some ("  ... 他 " ++ toString ((diffAdded old new).length - limit) ++ " 行")) ∧
    ((diffAdded old new).length ≤ limit →
      (renderAdded (diffRemoved old new) (diffAdded old new) limit).countP
          (fun l => pyStartsWith l "  ... 他 ") = 0) := by
  refine ⟨?_, (renderRemoved_props (diffRemoved old new) limit).1,
    (renderAdded_props (diffRemoved old new) (diffAdded old new) limit).1,
    (renderRemoved_props (diffRemoved old new) limit).2.1,
    (renderRemoved_props (diffRemoved old new) limit).2.2,
    (renderAdded_props (diffRemoved old new) (diffAdded old new) limit).2.1,
    (renderAdded_props (diffRemoved old new) (diffAdded old new) limit).2.2⟩
  simp only [get_diff_summary]
  split_ifs <;> simp

theorem claim3_truncation_witness :
    (diffRemoved "a\nb\nc\nd" "x").length > 2 ∧
    (renderRemoved (diffRemoved "a\nb\nc\nd" "x") 2).countP
        (fun l => pyStartsWith l "  ... 他 ") = 1 ∧
    (renderRemoved (diffRemoved "a\nb\nc\nd" "x") 2).getLast? =
      some ("  ... 他 " ++ toString ((diffRemoved "a\nb\nc\nd" "x").length - 2) ++ " 行") :=
  ⟨by decide, ((claim3_truncation "a\nb\nc\nd" "x" 2).2.2.2.1 (by decide)).1,
    ((claim3_truncation "a\nb\nc\nd" "x" 2).2.2.2.1 (by decide)).2⟩

/-- C1 counterexample: there is no redaction of volatile substrings anywhere
in the normalizer.  On two pages whose text differs only in a generation
timestamp (a volatile-token category named by the spec), the token survives
normalization verbatim and the fingerprints differ. -/
theorem claim1_no_redaction_counterexample :
    strip_html_tags tsPageOld = "Welcome!\ncache generated 1717171717" ∧
    strip_html_tags tsPageNew = "Welcome!\ncache generated 1717171718" ∧
    get_text_content_hash tsPageOld ≠ get_text_content_hash tsPageNew := by
  refine ⟨by decide, by decide, by decide⟩

/-- C1 amended: the fingerprint is a function of the normalized text, and a
volatile token confined to markup that is stripped wholesale (here a CSRF
token inside a tag attribute) does not affect the fingerprint - but this is
due to tag removal, not to any configurable redaction pattern set, and a
volatile token in text content does change the fingerprint.  The CSRF case
is proved parametrically: for every angle-bracket-free token value t, the
hidden-input page normalizes to the same text "Hello", so any two token
values produce equal fingerprints. -/
theorem claim1_amended_markup_stripping :
    (∀ h1 h2 : String, strip_html_tags h1 = strip_html_tags h2 →
      get_text_content_hash h1 = get_text_content_hash h2) ∧
    (∀ t : String, (∀ c ∈ t.data, c ≠ '<' ∧ c ≠ '>') →
      strip_html_tags (csrfPage t) = "Hello") ∧
    (∀ t1 t2 : String, (∀ c ∈ t1.data, c ≠ '<' ∧ c ≠ '>') →
      (∀ c ∈ t2.data, c ≠ '<' ∧ c ≠ '>') →
      get_text_content_hash (csrfPage t1) = get_text_content_hash (csrfPage t2)) ∧
    strip_html_tags csrfPageA = strip_html_tags csrfPageB ∧
    get_text_content_hash csrfPageA = get_text_content_hash csrfPageB := by
  refine ⟨fun h1 h2 h => ?_, strip_csrfPage, fun t1 t2 ht1 ht2 => ?_, by decide, by decide⟩
  · unfold get_text_content_hash
    rw [h]
  · unfold get_text_content_hash
    rw [strip_csrfPage t1 ht1, strip_csrfPage t2 ht2]

theorem claim1_amended_witness :
    strip_html_tags (csrfPage "deadbeef1234") = "Hello" ∧
    get_text_content_hash (csrfPage "deadbeef1234") =
      get_text_content_hash (csrfPage "cafebabe5678") ∧
    strip_html_tags csrfPageA = strip_html_tags csrfPageB ∧
    get_text_content_hash csrfPageA = get_text_content_hash csrfPageB :=
  ⟨claim1_amended_markup_stripping.2.1 "deadbeef1234" (by decide),
   claim1_amended_markup_stripping.2.2.1 "deadbeef1234" "cafebabe5678" (by decide) (by decide),
   by decide,
   claim1_amended_markup_stripping.1 csrfPageA csrfPageB (by decide)⟩

/-- C2 counterexample: a diff whose only changed line is blank (here the old
text's middle line) yields a summary consisting of the bare removed-content
header, not the "no change" sentinel the claim demands. -/
theorem claim2_blank_only_counterexample :
    extractChanges ((unified_diff (pySplitlines "a\n\nb") (pySplitlines "a\nb") 0).drop 2) =
      ([], [""]) ∧
    get_diff_summary "a\n\nb" "a\nb" 15 = "【削除された内容】" ∧
    get_diff_summary "a\n\nb" "a\nb" 15 ≠ noChange := by
  refine ⟨by decide, by decide, by decide⟩

/-- C2 amended: element-wise identical line sequences always yield the "no
change" sentinel; but a diff containing only blank-line changes yields a
header-only summary (blank entries are merely excluded from the rendered
bullets), not the sentinel. -/
theorem claim2_amended :
    (∀ (old new : String) (m : Nat), pySplitlines old = pySplitlines new →
      get_diff_summary old new m = noChange) ∧
    (∀ (old new : String) (m : Nat), pySplitlines old ≠ pySplitlines new →
      (∀ l ∈ diffRemoved old new, l = "") → diffRemoved old new ≠ [] →
      diffAdded old new = [] → (diffRemoved old new).length ≤ m →
      get_diff_summary old new m = "【削除された内容】") ∧
    get_diff_summary "a\n\nb" "a\nb" 15 = "【削除された内容】" := by
  refine ⟨fun old new m h => by simp [get_diff_summary, h], blank_only_header, by decide⟩

theorem claim2_amended_witness :
    pySplitlines "x\ny" = pySplitlines "x\ny" ∧
    get_diff_summary "x\ny" "x\ny" 3 = noChange :=
  ⟨rfl, claim2_amended.1 "x\ny" "x\ny" 3 rfl⟩

/-- C9: a changed line whose own content starts with two minus signs (resp.
two plus signs) becomes a diff line starting with three, which the metadata
filter removes, so the change is dropped from the extracted sequences; on a
pair of one-line texts exhibiting both, the summary degenerates to "no
change". -/
theorem claim9_metadata_collision :
    (∀ (x : String) (rest : List String), pyStartsWith x "--" = true →
      extractChanges (("-" ++ x) :: rest) = extractChanges rest) ∧
    (∀ (x : String) (rest : List String), pyStartsWith x "++" = true →
      extractChanges (("+" ++ x) :: rest) = extractChanges rest) ∧
    get_diff_summary "--foo" "++bar" 15 = noChange := by
  refine ⟨?_, ?_, by decide⟩
  · intro x rest h
    have h3 : pyStartsWith ("-" ++ x) "---" = true := h
    simp [extractChanges, h3]
  · intro x rest h
    have h4 : pyStartsWith ("+" ++ x) "---" = false := rfl
    have h5 : pyStartsWith ("+" ++ x) "+++" = true := h
    simp [extractChanges, h4, h5]

theorem claim9_metadata_collision_witness :
    pyStartsWith "--foo" "--" = true ∧
    extractChanges ["---foo"] = extractChanges [] :=
  ⟨by decide, claim9_metadata_collision.1 "--foo" [] (by decide)⟩

/-- C10: image placeholders are extracted from the raw markup before script,
style and comment removal.  In particular, for every comment-enclosed img tag
with an arbitrary angle-bracket-free prefix, an arbitrary suffix and any
nonempty src value over safe characters, the placeholder reaches the
normalized output; concrete instances witness the script and style cases; and
the alt suffix is omitted entirely when the alt text is empty (or absent). -/
theorem claim10_image_extraction_order :
    (∀ src : String, imgPlaceholder src "" = "[IMAGE: " ++ src ++ "]") ∧
    (∀ pre src post : String, (∀ c ∈ pre.data, c ≠ '<') → src.data ≠ [] →
      (∀ c ∈ src.data, c ≠ '<' ∧ c ≠ '>' ∧ c ≠ '"' ∧ c ≠ '\'' ∧ c ≠ '=') →
      imgPlaceholder src "" ∈
        stripLines ("<!--" ++ pre ++ "<img src=\"" ++ src ++ "\">" ++ post)) ∧
    extractImages "<script><img src=\"a.png\"></script>" = ["[IMAGE: a.png]"] ∧
    strip_html_tags "<script>var x=1;<img src=\"a.png\"></script><p>Hi</p>" =
      "Hi\n\n--- 画像一覧 ---\n[IMAGE: a.png]" ∧
    strip_html_tags "<style>.a1<img src=\"b.png\"></style><p>Hi</p>" =
      "Hi\n\n--- 画像一覧 ---\n[IMAGE: b.png]" ∧
    strip_html_tags "Hi<!--<img src=\"c.png\" alt=\"logo\">-->" =
      "Hi\n\n--- 画像一覧 ---\n[IMAGE: c.png] (alt: logo)" ∧
    strip_html_tags "<p>Hi</p><img src=\"d.png\" alt=\"\">" =
      "Hi\n\n--- 画像一覧 ---\n[IMAGE: d.png]" := by
  refine ⟨fun src => ?_, fun pre src post hpre hne hsafe => ?_,
    by decide, by decide, by decide, by decide, by decide⟩
  · simp [imgPlaceholder]
  · exact mem_stripLines_of_mem_extractImages _ _
      (extractImages_comment_mem pre src post hpre hne hsafe)

theorem claim10_image_extraction_order_witness :
    (∀ c ∈ ("body text ".data : List Char), c ≠ '<') ∧
    ("img/logo.png".data : List Char) ≠ [] ∧
    (∀ c ∈ ("img/logo.png".data : List Char),
      c ≠ '<' ∧ c ≠ '>' ∧ c ≠ '"' ∧ c ≠ '\'' ∧ c ≠ '=') ∧
    imgPlaceholder "img/logo.png" "" ∈
      stripLines ("<!--" ++ "body text " ++ "<img src=\"" ++ "img/logo.png" ++ "\">" ++
        "<p>after</p>") :=
  ⟨by decide, by decide, by decide,
    claim10_image_extraction_order.2.1 "body text " "img/logo.png" "<p>after</p>"
      (by decide) (by decide) (by decide)⟩

end Monitor
